import Mathlib

/-!
# LSS serial-servo driver (LSS.h / LSS.cpp): frame encoder, reply decoder, value parser

Shallow embedding of the protocol core of the library.

Conventions of the embedding
* A byte is a natural number (a `char` of the STM32 target is unsigned, 0..255); a C string is
  the list of its bytes before the terminating NUL.
* The serial transport is a pair of queues: `rx` holds the bytes that arrive in time, in order,
  and a read on an empty queue is a per-character timeout; `tx` collects what was written.
* `int` values are integers; `uint16_t` arithmetic is reduced modulo 2^16 and `int32_t`
  arithmetic is wrapped to 32 bits where the source stores into such a cell.
* Array stores outside `values[24]` are not modelled as changing any cell; a run that performs
  one is flagged (`ub`).
-/

namespace LSSLib

/-! ## Data model (LSS.h) -/

/-- Enumeration `LSS_LastCommStatus` of LSS.h, constructors in declaration order. -/
inductive LSS_LastCommStatus where
  | LSS_CommStatus_Idle
  | LSS_CommStatus_ReadSuccess
  | LSS_CommStatus_ReadTimeout
  | LSS_CommStatus_ReadWrongID
  | LSS_CommStatus_ReadWrongIdentifier
  | LSS_CommStatus_ReadWrongFormat
  | LSS_CommStatus_ReadNoBus
  | LSS_CommStatus_ReadUnknown
  | LSS_CommStatus_WriteSuccess
  | LSS_CommStatus_WriteNoBus
  | LSS_CommStatus_WriteUnknown
  deriving DecidableEq, Repr

open LSS_LastCommStatus

/-- Serial transport as the driver sees it: `rx` is the queue of incoming bytes (a read on the
empty queue times out), `tx` the bytes written so far. -/
structure Bus where
  rx : List Nat
  tx : List Nat
  deriving DecidableEq, Repr

/-- Struct `LSS` of LSS.h: `servoID` is a `uint8_t`, `readID` a `uint16_t`, `values` the
`char values[24]` scratch buffer; `bus` is the transport pointer (`none` for `nullptr`). -/
structure LSS where
  servoID : Nat
  lastCommStatus : LSS_LastCommStatus
  readID : Nat
  values : List Nat
  bus : Option Bus
  deriving DecidableEq, Repr

/-! ## Constants (LSS.cpp) -/

/-- `LSS_COMMAND_START` is the one-character string `#`. -/
def LSS_COMMAND_START : Nat := 35

/-- `LSS_COMMAND_REPLY_START` is the one-character string `*`. -/
def LSS_COMMAND_REPLY_START : Nat := 42

/-- `LSS_COMMAND_END` is the one-character string CR. -/
def LSS_COMMAND_END : Nat := 13

/-- `LSS_MAX_TOTAL_COMMAND_LENGTH` is `(30 + 1)`. -/
def LSS_MAX_TOTAL_COMMAND_LENGTH : Nat := 30 + 1

/-- `LSS_ACTION_MOVE` is the string `D`. -/
def LSS_ACTION_MOVE : List Nat := [68]

/-- `LSS_ACTION_PARAMETER_CURRENT_HOLD` is the string `CH`. -/
def LSS_ACTION_PARAMETER_CURRENT_HOLD : List Nat := [67, 72]

/-! ## Transport primitives -/

/-- Modelled from the spec: `Print::print(n, DEC)` of the transport for an unsigned argument is
not part of the sources; per the frame encoder contract it is the unsigned decimal rendering,
no sign, no padding. -/
def decimal (n : Nat) : List Nat :=
  if n < 10 then [48 + n] else decimal (n / 10) ++ [48 + n % 10]
termination_by n
decreasing_by omega

/-- Modelled from the spec: `Print::print(v, DEC)` of the transport for a signed argument is not
part of the sources; per the frame encoder contract it is the signed decimal rendering, a minus
sign only when negative. -/
def signedDecimal (v : Int) : List Nat :=
  if v < 0 then 45 :: decimal v.natAbs else decimal v.toNat

/-- Append bytes to the transmit queue (`bus->write`, `bus->print`). -/
def Bus.write (b : Bus) (bytes : List Nat) : Bus :=
  { b with tx := b.tx ++ bytes }

/-- Function `timed_read` of LSS.cpp: the next incoming byte, or -1 when none arrives before the
per-character timeout. -/
def timed_read (rx : List Nat) : Int × List Nat :=
  match rx with
  | [] => (-1, [])
  | c :: rest => ((c : Int), rest)

/-- Modelled from the spec: `Stream::find` of the transport is not part of the sources; per step 2
of the frame decoder it scans forward, discarding bytes, until the target byte is observed
(result `true`, the queue after it) or a read times out (result `false`). -/
def find (target : Nat) : List Nat → Bool × List Nat
  | [] => (false, [])
  | c :: rest => if c = target then (true, rest) else find target rest

/-! ## Writing (LSS.cpp, generic_write and variants) -/

/-- Function `generic_write` of LSS.cpp. Returns the boolean result and the updated handle. -/
def generic_write (lss : LSS) (cmd : List Nat) : Bool × LSS :=
  match lss.bus with
  | none => (false, { lss with lastCommStatus := LSS_CommStatus_WriteNoBus })
  | some bus =>
    let bus := bus.write [LSS_COMMAND_START]
    let bus := bus.write (decimal lss.servoID)
    let bus := bus.write cmd
    let bus := bus.write [LSS_COMMAND_END]
    (true, { lss with lastCommStatus := LSS_CommStatus_WriteSuccess, bus := some bus })

/-- Function `generic_write_val` of LSS.cpp; `value` is an `int16_t`. -/
def generic_write_val (lss : LSS) (cmd : List Nat) (value : Int) : Bool × LSS :=
  match lss.bus with
  | none => (false, { lss with lastCommStatus := LSS_CommStatus_WriteNoBus })
  | some bus =>
    let bus := bus.write [LSS_COMMAND_START]
    let bus := bus.write (decimal lss.servoID)
    let bus := bus.write cmd
    let bus := bus.write (signedDecimal value)
    let bus := bus.write [LSS_COMMAND_END]
    (true, { lss with lastCommStatus := LSS_CommStatus_WriteSuccess, bus := some bus })

/-- Function `generic_write_val_param` of LSS.cpp; `value` and `parameter_value` are
`int16_t`. -/
def generic_write_val_param (lss : LSS) (cmd : List Nat) (value : Int)
    (parameter : List Nat) (parameter_value : Int) : Bool × LSS :=
  match lss.bus with
  | none => (false, { lss with lastCommStatus := LSS_CommStatus_WriteNoBus })
  | some bus =>
    let bus := bus.write [LSS_COMMAND_START]
    let bus := bus.write (decimal lss.servoID)
    let bus := bus.write cmd
    let bus := bus.write (signedDecimal value)
    let bus := bus.write parameter
    let bus := bus.write (signedDecimal parameter_value)
    let bus := bus.write [LSS_COMMAND_END]
    (true, { lss with lastCommStatus := LSS_CommStatus_WriteSuccess, bus := some bus })

/-- Function `move_ch` of LSS.cpp. -/
def move_ch (lss : LSS) (value chValue : Int) : Bool × LSS :=
  generic_write_val_param lss LSS_ACTION_MOVE value LSS_ACTION_PARAMETER_CURRENT_HOLD chValue

/-! ## Reading (LSS.cpp, generic_read_str) -/

/-- State after the address loop of `generic_read_str`: the last character read (`c`, -1 on
timeout), the accumulated `readID`, `valid_field`, and the remaining incoming bytes. -/
structure IdScan where
  c : Int
  readID : Nat
  valid_field : Bool
  rx : List Nat
  deriving DecidableEq, Repr

/-- Address loop of `generic_read_str`:
`while ((c = timedRead()) >= 0) { if ((c < '0') || (c > '9')) break;
 readID = readID * 10 + c - '0'; valid_field = true; }` with `readID` a `uint16_t`. -/
def read_id_loop : List Nat → Nat → Bool → IdScan
  | [], readID, valid_field => ⟨-1, readID, valid_field, []⟩
  | c :: rest, readID, valid_field =>
    if (c : Int) < 48 ∨ (c : Int) > 57 then ⟨(c : Int), readID, valid_field, rest⟩
    else read_id_loop rest ((readID * 10 + c - 48) % 65536) true

/-- Outcome of the mnemonic loop of `generic_read_str`. -/
inductive CmdScan where
  | wrong (rx : List Nat)
  | matched (rx : List Nat)
  | overread (rx : List Nat)
  deriving DecidableEq, Repr

/-- Mnemonic loop of `generic_read_str`:
`for (;;) { if (c != *cmd) fail; cmd++; if (*cmd == 0) break; c = timedRead(); }`.
For the empty string `*cmd` is the terminator; stepping past it is flagged `overread`. -/
def match_cmd : Int → List Nat → List Nat → CmdScan
  | c, [], rx => if c ≠ 0 then .wrong rx else .overread rx
  | c, m :: ms, rx =>
    if c ≠ (m : Int) then .wrong rx
    else
      match ms with
      | [] => .matched rx
      | m2 :: ms2 => match_cmd (timed_read rx).1 (m2 :: ms2) (timed_read rx).2

/-- State of the payload loop of `generic_read_str`. -/
structure PayloadScan where
  c : Int
  index : Nat
  values : List Nat
  rx : List Nat
  ub : Bool
  deriving DecidableEq, Repr

/-- Payload loop of `generic_read_str`, the first argument being `maxLength - index`:
`while (index < maxLength) { c = timedRead(); if (c < 0 || c == '\r') break;
 value[index] = (char) c; index++; }`. A store at an index outside `values` sets `ub`. -/
def read_payload : Nat → PayloadScan → PayloadScan
  | 0, s => s
  | k + 1, s =>
    let c := (timed_read s.rx).1
    let rx := (timed_read s.rx).2
    if c < 0 ∨ c = (LSS_COMMAND_END : Int) then { s with c := c, rx := rx }
    else
      read_payload k
        { c := c, index := s.index + 1, values := s.values.set s.index (c.toNat % 256),
          rx := rx, ub := s.ub || decide (s.values.length ≤ s.index) }

/-- Result of `generic_read_str`: `ret` tells whether the returned pointer is non-null (it then
points to `lss.values`), `lss` is the handle after the call, and `ub` tells whether the run stored
outside `values[24]` or read past the end of `cmd`. -/
structure ReadStr where
  ret : Bool
  lss : LSS
  ub : Bool
  deriving DecidableEq, Repr

/-- Function `generic_read_str` of LSS.cpp. -/
def generic_read_str (lss : LSS) (cmd : List Nat) : ReadStr :=
  match lss.bus with
  | none => ⟨false, { lss with lastCommStatus := LSS_CommStatus_ReadNoBus }, false⟩
  | some bus =>
    let f := find LSS_COMMAND_REPLY_START bus.rx
    if !f.1 then
      ⟨false, { lss with lastCommStatus := LSS_CommStatus_ReadTimeout,
                         bus := some { bus with rx := f.2 } }, false⟩
    else
      let s := read_id_loop f.2 0 false
      if !s.valid_field || s.readID != lss.servoID then
        ⟨false, { lss with lastCommStatus := LSS_CommStatus_ReadWrongID, readID := s.readID,
                           bus := some { bus with rx := s.rx } }, false⟩
      else
        match match_cmd s.c cmd s.rx with
        | .wrong rx =>
          ⟨false, { lss with lastCommStatus := LSS_CommStatus_ReadWrongIdentifier,
                             readID := s.readID, bus := some { bus with rx := rx } }, false⟩
        | .overread rx =>
          ⟨false, { lss with lastCommStatus := LSS_CommStatus_ReadWrongIdentifier,
                             readID := s.readID, bus := some { bus with rx := rx } }, true⟩
        | .matched rx =>
          let maxLength := LSS_MAX_TOTAL_COMMAND_LENGTH - 1
          let p := read_payload (maxLength - 0) ⟨s.c, 0, lss.values, rx, false⟩
          let values := p.values.set p.index 0
          let ub := p.ub || decide (p.values.length ≤ p.index)
          if p.c < 0 then
            ⟨false, { lss with lastCommStatus := LSS_CommStatus_ReadTimeout, readID := s.readID,
                               values := values, bus := some { bus with rx := p.rx } }, ub⟩
          else
            ⟨true, { lss with lastCommStatus := LSS_CommStatus_ReadSuccess, readID := s.readID,
                              values := values, bus := some { bus with rx := p.rx } }, ub⟩

/-- The C string stored in a buffer: the bytes before the first NUL. -/
def c_str (buf : List Nat) : List Nat :=
  buf.takeWhile (fun b => b != 0)

/-- The string a caller reads through the pointer returned by `generic_read_str`
(`none` for the null pointer). -/
def ReadStr.payload (r : ReadStr) : Option (List Nat) :=
  if r.ret then some (c_str r.lss.values) else none

/-! ## Value parser (LSS.h, str_to_int) -/

/-- Function `is_AF` of LSS.h. -/
def is_AF (c : Nat) : Bool := decide (c ≥ 65) && decide (c ≤ 70)

/-- Function `is_af` of LSS.h. -/
def is_af (c : Nat) : Bool := decide (c ≥ 97) && decide (c ≤ 102)

/-- Function `is_09` of LSS.h. -/
def is_09 (c : Nat) : Bool := decide (c ≥ 48) && decide (c ≤ 57)

/-- Function `is_valid_hex` of LSS.h. -/
def is_valid_hex (c : Nat) : Bool := is_AF c || is_af c || is_09 c

/-- Function `is_valid_dec` of LSS.h. -/
def is_valid_dec (c : Nat) : Bool := is_09 c

/-- Function `convert_dec` of LSS.h: `c - '0'` returned as a `uint8_t`. -/
def convert_dec (c : Nat) : Nat := (((c : Int) - 48) % 256).toNat

/-- Function `convert_hex` of LSS.h, returned as a `uint8_t`. -/
def convert_hex (c : Nat) : Nat :=
  if is_09 c then (((c : Int) - 48) % 256).toNat
  else if is_AF c then (((c : Int) - 65 + 10) % 256).toNat
  else if is_af c then (((c : Int) - 97 + 10) % 256).toNat
  else 0

/-- Two's-complement wrap of an integer into the `int32_t` range. -/
@[irreducible] def wrap32 (x : Int) : Int := (x + 2147483648) % 4294967296 - 2147483648

/-- The character `inputstr[i]` of a C string: the terminator at the end of the list. -/
def charAt (s : List Nat) (i : Nat) : Nat := s.getD i 0

/-- Constant `MAX_LENGTH` of `str_to_int`. -/
def MAX_LENGTH : Nat := 11

/-- Hexadecimal loop of `str_to_int`, `for (int8_t i = 2; i < MAX_LENGTH; i++)`; the first
argument is `MAX_LENGTH - i`. Returns the result and the content of `*intnum`. -/
def str_to_int_hex (s : List Nat) : Nat → Nat → Int → Bool × Int
  | 0, _, intnum => (false, intnum)
  | k + 1, i, intnum =>
    if charAt s i = 0 then (true, intnum)
    else if is_valid_hex (charAt s i) then
      str_to_int_hex s k (i + 1) (wrap32 (intnum * 16 + (convert_hex (charAt s i) : Int)))
    else (false, intnum)

/-- Decimal loop of `str_to_int`, `for (int i = neg ? 1 : 0; i < MAX_LENGTH; i++)`; the first
argument is `MAX_LENGTH - i`. Returns the result and the content of `*intnum`. -/
def str_to_int_dec (s : List Nat) (neg : Bool) : Nat → Nat → Int → Bool × Int
  | 0, _, intnum => (false, intnum)
  | k + 1, i, intnum =>
    if charAt s i = 0 then (true, wrap32 (intnum * (if neg then -1 else 1)))
    else if is_valid_dec (charAt s i) then
      str_to_int_dec s neg k (i + 1) (wrap32 (intnum * 10 + (convert_dec (charAt s i) : Int)))
    else (false, intnum)

/-- Function `str_to_int` of LSS.h: `inputstr` is `none` for the null pointer, `intnum` is the
content of the output cell on entry; the result pairs the returned boolean with the content of
the cell on exit. -/
def str_to_int (inputstr : Option (List Nat)) (intnum : Int) : Bool × Int :=
  match inputstr with
  | none => (false, intnum)
  | some s =>
    if charAt s 0 = 0 then (false, intnum)
    else if charAt s 0 = 48 ∧ (charAt s 1 = 120 ∨ charAt s 1 = 88) then
      if charAt s 2 = 0 then (true, 0)
      else str_to_int_hex s (MAX_LENGTH - 2) 2 intnum
    else
      let neg := decide (charAt s 0 = 45)
      if neg && decide (charAt s 1 = 0) then (false, intnum)
      else str_to_int_dec s neg (MAX_LENGTH - (if neg then 1 else 0)) (if neg then 1 else 0) intnum

/-! ## Auxiliary notions used to state the properties -/

/-- A byte is a decimal digit character. -/
def IsDigit (c : Nat) : Prop := 48 ≤ c ∧ c ≤ 57

instance (c : Nat) : Decidable (IsDigit c) := by unfold IsDigit; infer_instance

/-- The number denoted by a run of decimal digit characters. -/
def decValue (ds : List Nat) : Nat := ds.foldl (fun a c => a * 10 + (c - 48)) 0

/-- The first byte of a list, if any, is not a decimal digit. -/
def HeadNotDigit (l : List Nat) : Prop := ∀ c, l.head? = some c → ¬ IsDigit c

instance (l : List Nat) : Decidable (HeadNotDigit l) := by
  unfold HeadNotDigit
  cases l with
  | nil => exact isTrue (by simp)
  | cons a t =>
    by_cases h : IsDigit a
    · exact isFalse (by simp [h])
    · exact isTrue (by simp [h])

/-- The handle `lss` given the address `id` and an attached transport with incoming bytes `rx`
and already written bytes `tx`. -/
def LSS.attached (lss : LSS) (id : Nat) (rx tx : List Nat) : LSS :=
  { lss with servoID := id, bus := some ⟨rx, tx⟩ }

/-- A freshly zeroed handle with no transport, used to instantiate the properties. -/
def idleHandle : LSS := ⟨0, LSS_CommStatus_Idle, 0, List.replicate 24 0, none⟩

/-- The `uint16_t` accumulation of the address loop over a run of digits. -/
def idAcc (acc : Nat) (ds : List Nat) : Nat :=
  ds.foldl (fun a c => (a * 10 + c - 48) % 65536) acc

/-- The `int32_t` accumulation of the decimal loop of `str_to_int` over a run of digits. -/
def decAcc (acc : Int) (ds : List Nat) : Int :=
  ds.foldl (fun a c => wrap32 (a * 10 + ((c - 48 : Nat) : Int))) acc

/-! ## Queries built on the reader (LSS.cpp) -/

/-- `LSS_QUERY_POSITION` is the string `QD`. -/
def LSS_QUERY_POSITION : List Nat := [81, 68]

/-- `LSS_QUERY_FIRST_POSITION` is the string `QFD`. -/
def LSS_QUERY_FIRST_POSITION : List Nat := [81, 70, 68]

/-- `LSS_FIRST_POSITION_DISABLED` is the string `DIS`. -/
def LSS_FIRST_POSITION_DISABLED : List Nat := [68, 73, 83]

/-- C library `strcmp` on two C strings: zero exactly when they are equal, otherwise the
difference of the first two bytes that differ (the terminator counting as 0). -/
def strcmp : List Nat → List Nat → Int
  | [], [] => 0
  | [], b :: _ => -(b : Int)
  | a :: _, [] => (a : Int)
  | a :: as, b :: bs => if a = b then strcmp as bs else (a : Int) - (b : Int)

/-- Two's-complement wrap of an integer into the `int16_t` range (the cast `(int16_t)`). -/
@[irreducible] def wrap16 (x : Int) : Int := (x + 32768) % 65536 - 32768

/-- Result of a query: the returned value, the handle after the call, and whether the run left
defined behaviour (a store outside `values[24]`, or a null pointer handed to `strcmp`). -/
structure Reply (α : Type) where
  ret : α
  lss : LSS
  ub : Bool

/-- Function `get_position` of LSS.cpp, with the macro `CHECK_COMM_STATUS` expanded; the result
is an `int32_t`. -/
def get_position (lss : LSS) : Reply Int :=
  let w := generic_write lss LSS_QUERY_POSITION
  if !w.1 then ⟨0, { w.2 with lastCommStatus := LSS_CommStatus_WriteNoBus }, false⟩
  else
    let r := generic_read_str w.2 LSS_QUERY_POSITION
    let conv := str_to_int r.payload 0
    if conv.1 then ⟨conv.2, r.lss, r.ub⟩ else ⟨0, r.lss, r.ub⟩

/-- A run of `get_first_position`: the reply, together with the call of `str_to_int` made by the
run and its result (`none` when the function returned before reaching the call). -/
structure FirstPositionRun extends Reply Int where
  parse : Option (Bool × Int)

/-- Function `get_first_position` of LSS.cpp, with the macro `CHECK_COMM_STATUS` expanded; the
result is an `int16_t`. When the read failed the source hands the null pointer to `strcmp`; that
run is flagged and given the result 0. The field `parse` is `some` exactly on the paths that go
through the statement `str_to_int(valueStr, &valuePos)`. -/
def get_first_position (lss : LSS) : FirstPositionRun :=
  let w := generic_write lss LSS_QUERY_FIRST_POSITION
  if !w.1 then ⟨⟨0, { w.2 with lastCommStatus := LSS_CommStatus_WriteNoBus }, false⟩, none⟩
  else
    let r := generic_read_str w.2 LSS_QUERY_FIRST_POSITION
    match r.payload with
    | none => ⟨⟨0, r.lss, true⟩, none⟩
    | some valueStr =>
      if strcmp valueStr LSS_FIRST_POSITION_DISABLED = 0 then ⟨⟨0, r.lss, r.ub⟩, none⟩
      else
        let conv := str_to_int (some valueStr) 0
        if conv.1 then ⟨⟨wrap16 conv.2, r.lss, r.ub⟩, some conv⟩
        else ⟨⟨0, r.lss, r.ub⟩, some conv⟩

/-- Function `get_is_first_position_enabled` of LSS.cpp, with the macro `CHECK_COMM_STATUS`
expanded; the `int` returned by `strcmp` is converted to `bool`. -/
def get_is_first_position_enabled (lss : LSS) : Reply Bool :=
  let w := generic_write lss LSS_QUERY_FIRST_POSITION
  if !w.1 then ⟨false, { w.2 with lastCommStatus := LSS_CommStatus_WriteNoBus }, false⟩
  else
    let r := generic_read_str w.2 LSS_QUERY_FIRST_POSITION
    if r.lss.lastCommStatus = LSS_CommStatus_ReadSuccess then
      match r.payload with
      | none => ⟨false, r.lss, true⟩
      | some valueStr =>
        ⟨decide (strcmp valueStr LSS_FIRST_POSITION_DISABLED ≠ 0), r.lss, r.ub⟩
    else ⟨false, r.lss, r.ub⟩

/-! ## Mnemonic tables (LSS.cpp, command constants) -/

/-- The bytes of a string literal. -/
def cstring (s : String) : List Nat := s.toList.map Char.toNat

/-- Every command, query and configuration mnemonic defined in LSS.cpp (the `LSS_ACTION_*`,
`LSS_FILTER_POSITION_COUNT`, `LSS_QUERY_*` and `LSS_CONFIG_*` constants other than the action
parameters), in order of definition. -/
def commandMnemonics : List String :=
  [ "RESET", "L", "H", "D", "MD", "WD", "WR",
    "O", "AR", "SD", "SR", "LED", "G",
    "AS", "AH", "AA", "AD", "EM", "FPC",
    "Q", "QO", "QAR", "QP", "QD", "QWD", "QWR", "QS", "QSD", "QSR", "QLED", "QG", "QID", "QB",
    "QFD", "QMS", "QN", "QF", "QV", "QT", "QC", "QA",
    "QAS", "QAH", "QAA", "QAD", "QEM", "QFPC", "QLB",
    "CID", "CB", "CO", "CAR", "CSD", "CSR", "CLED", "CG", "CFD", "CRC", "CFPC",
    "CAS", "CAH", "CAA", "CAD", "CLB" ]

/-- The action parameter mnemonics `LSS_ACTION_PARAMETER_TIME`, `_CURRENT_HOLD` and `_SPEED`. -/
def parameterMnemonics : List String := [ "T", "CH", "S" ]

/-! ## Further notions used to state the properties -/

/-- A byte is a hexadecimal digit character, either case. -/
def IsHexDigit (c : Nat) : Prop :=
  (48 ≤ c ∧ c ≤ 57) ∨ (65 ≤ c ∧ c ≤ 70) ∨ (97 ≤ c ∧ c ≤ 102)

instance (c : Nat) : Decidable (IsHexDigit c) := by unfold IsHexDigit; infer_instance

/-- The value of a hexadecimal digit character. -/
def hexDigit (c : Nat) : Nat :=
  if 48 ≤ c ∧ c ≤ 57 then c - 48
  else if 65 ≤ c ∧ c ≤ 70 then c - 55
  else if 97 ≤ c ∧ c ≤ 102 then c - 87
  else 0

/-- The number denoted by a run of hexadecimal digit characters. -/
def hexValue (h : List Nat) : Nat := h.foldl (fun a c => a * 16 + hexDigit c) 0

/-- The `int32_t` accumulation of the hexadecimal loop of `str_to_int` over a run of digits. -/
def hexAcc (acc : Int) (h : List Nat) : Int :=
  h.foldl (fun a c => wrap32 (a * 16 + (convert_hex c : Int))) acc

/-- The part of a decimal input after its optional leading minus sign. -/
def decimalBody (s : List Nat) : List Nat :=
  match s with
  | 45 :: t => t
  | _ => s

/-- The input starts with `0x` or `0X`. -/
def HasHexMark (s : List Nat) : Prop :=
  charAt s 0 = 48 ∧ (charAt s 1 = 120 ∨ charAt s 1 = 88)

instance (s : List Nat) : Decidable (HasHexMark s) := by unfold HasHexMark; infer_instance

/-! ## Constructor and numeric queries (LSS.cpp) -/

/-- `LSS_ID_DEFAULT` is `(0)`. -/
def LSS_ID_DEFAULT : Nat := 0

/-- `LSS_ID_MIN` is `(0)`. -/
def LSS_ID_MIN : Nat := 0

/-- `LSS_ID_MAX` is `(250)`. -/
def LSS_ID_MAX : Nat := 250

/-- `LSS_QUERY_MODEL_STRING` is the string `QMS`. -/
def LSS_QUERY_MODEL_STRING : List Nat := [81, 77, 83]

/-- `LSS_QUERY_ANALOG` is the string `QA`. -/
def LSS_QUERY_ANALOG : List Nat := [81, 65]

/-- Function `init_bus` of LSS.cpp: the handle is given the transport (`none` for a null
`huart`). -/
def init_bus (lss : LSS) (huart : Option Bus) (_baud : Nat) : LSS :=
  { lss with bus := huart }

/-- Constructor `LSS(lss, id, huart, baud)` of LSS.cpp (declared as `LSS_init` in LSS.h); `id` is
a `uint8_t`. The first component tells whether the expression checked by `assert_param` holds,
the second is the handle after the call. -/
def LSS_init (lss : LSS) (id : Nat) (huart : Option Bus) (baud : Nat) : Bool × LSS :=
  (decide (id > LSS_ID_MIN) && decide (id < LSS_ID_MAX),
   init_bus { lss with servoID := id } huart baud)

/-- State after the conversion loop of `generic_read_s16`: the `int16_t` variables `value` and
`value_sign`, and the part of the string not consumed. -/
structure S16Scan where
  value : Int
  value_sign : Int
  rest : List Nat

/-- Conversion loop of `generic_read_s16`:
`for(;;) { if ((*valueStr >= '0') && (*valueStr <= '9')) value = value * 10 + *valueStr - '0';
 else if (*valueStr == '-') value_sign = -1; else break; valueStr++; }`, `value` being an
`int16_t`. -/
def s16_loop : List Nat → Int → Int → S16Scan
  | [], value, value_sign => ⟨value, value_sign, []⟩
  | c :: cs, value, value_sign =>
    if c ≥ 48 ∧ c ≤ 57 then s16_loop cs (wrap16 (value * 10 + (c : Int) - 48)) value_sign
    else if c = 45 then s16_loop cs value (-1)
    else ⟨value, value_sign, c :: cs⟩

/-- Function `generic_read_s16` of LSS.cpp (its call `genericRead_Blocking_str(id, cmd)` is the
reader `generic_read_str`); the result is a `uint16_t`. -/
def generic_read_s16 (lss : LSS) (cmd : List Nat) : Reply Nat :=
  let r := generic_read_str lss cmd
  match r.payload with
  | none => ⟨0, r.lss, r.ub⟩
  | some valueStr =>
    match r.lss.bus with
    | none => ⟨0, { r.lss with lastCommStatus := LSS_CommStatus_ReadNoBus }, r.ub⟩
    | some _ =>
      let s := s16_loop valueStr 0 1
      if s.rest ≠ [] then
        ⟨0, { r.lss with lastCommStatus := LSS_CommStatus_ReadWrongID }, r.ub⟩
      else ⟨((s.value * s.value_sign) % 65536).toNat, r.lss, r.ub⟩

/-- Enumeration `LSS_QueryTypeDistance` of LSS.h. -/
inductive LSS_QueryTypeDistance where
  | LSS_Query_Sharp_GP2Y0A41SK0F
  | LSS_Query_Sharp_GP2Y0A21YK0F
  | LSS_Query_Sharp_GP2Y0A02YK0F
  deriving DecidableEq, Repr

/-- The integer values 1, 2, 3 given to the enumerators of `LSS_QueryTypeDistance`. -/
def LSS_QueryTypeDistance.toNat : LSS_QueryTypeDistance → Nat
  | .LSS_Query_Sharp_GP2Y0A41SK0F => 1
  | .LSS_Query_Sharp_GP2Y0A21YK0F => 2
  | .LSS_Query_Sharp_GP2Y0A02YK0F => 3

/-- Function `get_distance_mm` of LSS.cpp, with the macro `CHECK_COMM_STATUS_TYPE` expanded. -/
def get_distance_mm (lss : LSS) (queryTypeDistance : LSS_QueryTypeDistance) : Reply Nat :=
  let w := generic_write_val lss LSS_QUERY_MODEL_STRING (queryTypeDistance.toNat : Int)
  if !w.1 then ⟨0, { w.2 with lastCommStatus := LSS_CommStatus_WriteNoBus }, false⟩
  else generic_read_s16 w.2 LSS_QUERY_ANALOG

/-! ## Notions used to state the numeric query properties -/

/-- A byte is a decimal digit or the minus sign. -/
def IsNumChar (c : Nat) : Prop := IsDigit c ∨ c = 45

instance (c : Nat) : Decidable (IsNumChar c) := by unfold IsNumChar; infer_instance

/-- The digits of a payload, in order. -/
def digitsOf (p : List Nat) : List Nat := p.filter (fun c => decide (IsDigit c))

/-- The sign applied by `generic_read_s16`: -1 when the payload has a minus sign anywhere. -/
def signOf (p : List Nat) : Int := if 45 ∈ p then -1 else 1

/-- The `int16_t` accumulation of the conversion loop over a payload of digits and minus
signs. -/
def s16Acc (acc : Int) (p : List Nat) : Int :=
  p.foldl (fun (a : Int) (c : Nat) => if c ≥ 48 ∧ c ≤ 57 then wrap16 (a * 10 + (c : Int) - 48)
    else a) acc

/-- The reply stream `'*' ++ decimal(id) ++ "QFD" ++ p ++ CR ++ tail`: a correctly framed reply
to the first position query from the servo `id`, with payload `p`. -/
def firstPositionReply (id : Nat) (p tail : List Nat) : List Nat :=
  42 :: (decimal id ++ LSS_QUERY_FIRST_POSITION ++ p ++ 13 :: tail)

/-! ## Lemmas on the decimal rendering -/

theorem decimal_digits (n : Nat) : ∀ c ∈ decimal n, IsDigit c := by
  induction n using Nat.strong_induction_on with
  | _ n ih =>
    intro c hc
    rw [decimal] at hc
    split at hc
    · simp at hc; subst hc; unfold IsDigit; omega
    · rcases List.mem_append.1 hc with h | h
      · exact ih (n / 10) (by omega) c h
      · simp at h; subst h; unfold IsDigit; omega

theorem decimal_ne_nil (n : Nat) : decimal n ≠ [] := by
  rw [decimal]
  split <;> simp

theorem decimal_head (n : Nat) (hn : n ≠ 0) : (decimal n).head? ≠ some 48 := by
  induction n using Nat.strong_induction_on with
  | _ n ih =>
    rw [decimal]
    split
    · simp; omega
    · have h1 := ih (n / 10) (by omega) (by omega)
      have h2 := decimal_ne_nil (n / 10)
      cases hd : decimal (n / 10) with
      | nil => exact absurd hd h2
      | cons a t => rw [hd] at h1; simpa using h1

theorem decValue_decimal (n : Nat) : decValue (decimal n) = n := by
  induction n using Nat.strong_induction_on with
  | _ n ih =>
    rw [decimal]
    split
    · simp [decValue]
    · have h1 := ih (n / 10) (by omega)
      unfold decValue at h1 ⊢
      rw [List.foldl_append, h1]
      simp
      omega

/-! ## Lemmas on the reply decoder loops -/

theorem find_skip (t : Nat) (g rest : List Nat) (hg : t ∉ g) :
    find t (g ++ t :: rest) = (true, rest) := by
  induction g with
  | nil => simp [find]
  | cons a g ih =>
    have ha : a ≠ t := fun h => hg (by simp [h])
    have hg2 : t ∉ g := fun h => hg (by simp [h])
    simp [find, ha, ih hg2]

theorem find_none (t : Nat) (g : List Nat) (hg : t ∉ g) : find t g = (false, []) := by
  induction g with
  | nil => simp [find]
  | cons a g ih =>
    have ha : a ≠ t := fun h => hg (by simp [h])
    have hg2 : t ∉ g := fun h => hg (by simp [h])
    simp [find, ha, ih hg2]

theorem read_id_loop_stop (rest : List Nat) (acc : Nat) (v : Bool) (hrest : HeadNotDigit rest) :
    read_id_loop rest acc v = ⟨(timed_read rest).1, acc, v, (timed_read rest).2⟩ := by
  cases rest with
  | nil => simp [read_id_loop, timed_read]
  | cons c r =>
    have hc : ¬ IsDigit c := hrest c (by simp)
    have hc2 : (c : Int) < 48 ∨ (c : Int) > 57 := by unfold IsDigit at hc; omega
    rw [read_id_loop, if_pos hc2]
    simp [timed_read]

theorem read_id_loop_digits (ds rest : List Nat) (acc : Nat) (v : Bool)
    (hds : ∀ c ∈ ds, IsDigit c) (hrest : HeadNotDigit rest) :
    read_id_loop (ds ++ rest) acc v =
      ⟨(timed_read rest).1, idAcc acc ds, v || !ds.isEmpty, (timed_read rest).2⟩ := by
  induction ds generalizing acc v with
  | nil => simpa [idAcc] using read_id_loop_stop rest acc v hrest
  | cons d ds ih =>
    have hd : IsDigit d := hds d (by simp)
    have hd2 : ¬ ((d : Int) < 48 ∨ (d : Int) > 57) := by unfold IsDigit at hd; omega
    have hds2 : ∀ c ∈ ds, IsDigit c := fun c hc => hds c (by simp [hc])
    show read_id_loop (d :: (ds ++ rest)) acc v = _
    rw [read_id_loop, if_neg hd2, ih _ _ hds2]
    simp [idAcc]

theorem idAcc_eq_decValue (ds : List Nat) (hds : ∀ c ∈ ds, IsDigit c) :
    idAcc 0 ds = decValue ds % 65536 := by
  induction ds using List.reverseRecOn with
  | nil => simp [idAcc, decValue]
  | append_singleton ds d ih =>
    have hd : IsDigit d := hds d (by simp)
    have hds2 : ∀ c ∈ ds, IsDigit c := fun c hc => hds c (by simp [hc])
    have h := ih hds2
    unfold idAcc decValue at h ⊢
    rw [List.foldl_append, List.foldl_append, h]
    unfold IsDigit at hd
    simp only [List.foldl_cons, List.foldl_nil]
    omega

theorem idAcc_decimal (n : Nat) (hn : n < 65536) : idAcc 0 (decimal n) = n := by
  rw [idAcc_eq_decValue _ (decimal_digits n), decValue_decimal]
  omega

theorem match_cmd_ok (m : Nat) (ms rest : List Nat) :
    match_cmd (m : Int) (m :: ms) (ms ++ rest) = .matched rest := by
  induction ms generalizing m with
  | nil => simp [match_cmd]
  | cons m2 ms ih =>
    rw [match_cmd]
    simp only [ne_eq, not_true_eq_false, if_false, List.cons_append, timed_read]
    exact ih m2

theorem match_cmd_wrong (a : List Nat) (x : Nat) (b : List Nat) (y : Nat) (rest : List Nat)
    (hxy : y ≠ x) :
    match_cmd (timed_read (a ++ y :: rest)).1 (a ++ x :: b) (timed_read (a ++ y :: rest)).2
      = .wrong rest := by
  induction a with
  | nil =>
    have h : ((y : Int) ≠ (x : Int)) := by omega
    simp only [List.nil_append, timed_read]
    rw [match_cmd.eq_def]
    simp [h]
  | cons a0 a ih =>
    simp only [List.cons_append, timed_read]
    rw [match_cmd.eq_def]
    cases a with
    | nil => simpa using ih
    | cons a1 a => simpa using ih

theorem set_length_append (done : List Nat) (t : Nat) (todo : List Nat) (c : Nat) :
    (done ++ t :: todo).set done.length c = done ++ c :: todo := by
  induction done with
  | nil => simp
  | cons d done ih => simp [ih]

theorem read_payload_ok (p : List Nat) (k : Nat) (c0 : Int) (done todo tail : List Nat)
    (hk : p.length < k) (hp : ∀ b ∈ p, b ≠ 13 ∧ b < 256) (hlen : p.length ≤ todo.length) :
    read_payload k ⟨c0, done.length, done ++ todo, p ++ 13 :: tail, false⟩ =
      ⟨13, done.length + p.length, done ++ p ++ todo.drop p.length, tail, false⟩ := by
  induction p generalizing k c0 done todo with
  | nil =>
    cases k with
    | zero => simp at hk
    | succ k => simp [read_payload, timed_read, LSS_COMMAND_END]
  | cons b p ih =>
    cases k with
    | zero => simp at hk
    | succ k =>
      cases todo with
      | nil => simp at hlen
      | cons t todo =>
        have hb := hp b (by simp)
        have hp2 : ∀ x ∈ p, x ≠ 13 ∧ x < 256 := fun x hx => hp x (by simp [hx])
        have hb1 : ¬ ((b : Int) < 0 ∨ (b : Int) = 13) := by omega
        have hb2 : b % 256 = b := Nat.mod_eq_of_lt hb.2
        simp only [List.length_cons] at hk hlen
        have h := ih k (b : Int) (done ++ [b]) todo (by omega) hp2 (by omega)
        simp only [List.length_append, List.length_singleton, List.append_assoc,
          List.singleton_append] at h
        rw [read_payload]
        simp only [List.cons_append, timed_read, LSS_COMMAND_END, Nat.cast_ofNat, hb1, if_false,
          Int.toNat_ofNat, hb2, set_length_append, Bool.false_or]
        have hlt : ¬ (done ++ t :: todo).length ≤ done.length := by simp
        simp only [hlt, decide_False]
        rw [h]
        simp [Nat.add_assoc, Nat.add_comm 1]

theorem c_str_append_nul (p rest : List Nat) (hp : ∀ b ∈ p, b ≠ 0) :
    c_str (p ++ 0 :: rest) = p := by
  induction p with
  | nil => simp [c_str]
  | cons b p ih =>
    have hb : b ≠ 0 := hp b (by simp)
    have hp2 : ∀ x ∈ p, x ≠ 0 := fun x hx => hp x (by simp [hx])
    have h := ih hp2
    have hb2 : (b != 0) = true := by simp [hb]
    unfold c_str at h ⊢
    show List.takeWhile (fun b => b != 0) (b :: (p ++ 0 :: rest)) = b :: p
    rw [List.takeWhile_cons, h]
    simp [hb]

theorem headNotDigit_append (m rest : List Nat) (hm : m ≠ []) (hm0 : HeadNotDigit m) :
    HeadNotDigit (m ++ rest) := by
  cases m with
  | nil => exact absurd rfl hm
  | cons a t => intro c hc; exact hm0 c (by simpa using hc)

/-! ## Properties of the reply decoder -/

/-- Claim C1 (decode round trip): on a handle with address `id` in 0..250 and expected mnemonic
`m` (non-empty, first byte not a decimal digit), reading the stream
`'*' ++ decimal(id) ++ m ++ p ++ CR` (whatever follows the CR), where the payload `p` has at most
23 bytes and no CR, returns a non-null pointer to the buffer, which holds exactly `p` followed by
the terminator, and leaves `lastCommStatus = LSS_CommStatus_ReadSuccess`; the run stays inside
the buffer, and when `p` has no NUL byte the string read through the pointer is `p`. -/
theorem C1_decode_round_trip (lss : LSS) (tx : List Nat) (id : Nat) (m p tail : List Nat)
    (hid : id ≤ 250) (hm : m ≠ []) (hm0 : HeadNotDigit m)
    (hp : p.length ≤ 23) (hcr : ∀ b ∈ p, b ≠ 13 ∧ b < 256) (hbuf : lss.values.length = 24) :
    (generic_read_str (lss.attached id (42 :: (decimal id ++ m ++ p ++ 13 :: tail)) tx) m).ret = true ∧
    (generic_read_str (lss.attached id (42 :: (decimal id ++ m ++ p ++ 13 :: tail)) tx) m).lss.lastCommStatus
      = LSS_CommStatus_ReadSuccess ∧
    (generic_read_str (lss.attached id (42 :: (decimal id ++ m ++ p ++ 13 :: tail)) tx) m).ub = false ∧
    (generic_read_str (lss.attached id (42 :: (decimal id ++ m ++ p ++ 13 :: tail)) tx) m).lss.values.take
      (p.length + 1) = p ++ [0] ∧
    ((∀ b ∈ p, b ≠ 0) →
      (generic_read_str (lss.attached id (42 :: (decimal id ++ m ++ p ++ 13 :: tail)) tx) m).payload = some p) := by
  obtain ⟨m0, ms, rfl⟩ : ∃ m0 ms, m = m0 :: ms := by
    cases m with
    | nil => exact absurd rfl hm
    | cons a t => exact ⟨a, t, rfl⟩
  have hnd : HeadNotDigit ((m0 :: ms) ++ (p ++ 13 :: tail)) :=
    headNotDigit_append _ _ hm hm0
  have hscan := read_id_loop_digits (decimal id) ((m0 :: ms) ++ (p ++ 13 :: tail)) 0 false
    (decimal_digits id) hnd
  have hne : (decimal id).isEmpty = false := by
    cases h : decimal id with
    | nil => exact absurd h (decimal_ne_nil id)
    | cons a t => rfl
  rw [idAcc_decimal id (by omega)] at hscan
  simp only [List.cons_append, timed_read, hne, Bool.not_false, Bool.or_true] at hscan
  have hcmd := match_cmd_ok m0 ms (p ++ 13 :: tail)
  have hpay := read_payload_ok p 30 (m0 : Int) [] lss.values tail (by omega) hcr (by omega)
  simp only [List.length_nil, List.nil_append, Nat.zero_add] at hpay
  obtain ⟨t, rest, hdrop⟩ : ∃ t rest, lss.values.drop p.length = t :: rest := by
    cases h : lss.values.drop p.length with
    | nil =>
      have := congrArg List.length h
      simp at this
      omega
    | cons a b => exact ⟨a, b, rfl⟩
  have hgen : generic_read_str
        (lss.attached id (42 :: (decimal id ++ (m0 :: ms) ++ p ++ 13 :: tail)) tx) (m0 :: ms)
      = ⟨true, { lss with servoID := id, lastCommStatus := LSS_CommStatus_ReadSuccess,
                          readID := id, values := p ++ 0 :: rest,
                          bus := some ⟨tail, tx⟩ }, false⟩ := by
    unfold generic_read_str LSS.attached
    simp only [find, LSS_COMMAND_REPLY_START, if_true, Bool.not_true, Bool.false_eq_true,
      if_false, List.append_assoc, List.cons_append]
    rw [hscan]
    simp only [Bool.not_true, bne_self_eq_false, Bool.or_self, Bool.false_eq_true, if_false]
    rw [hcmd]
    simp only [LSS_MAX_TOTAL_COMMAND_LENGTH, Nat.add_one_sub_one, Nat.sub_zero]
    simp only [hpay, hdrop]
    have hlt : ¬ (p ++ t :: rest).length ≤ p.length := by simp
    simp [set_length_append, hlt]
  rw [hgen]
  refine ⟨rfl, rfl, rfl, ?_, ?_⟩
  · simp [List.take_append_eq_append_take]
  · intro hz
    simp [ReadStr.payload, c_str_append_nul p rest hz]

/-- Instance of C1: handle 5, mnemonic `QD`, payload `12`. -/
theorem C1_decode_round_trip_witness :
    (5 ≤ 250 ∧ [81, 68] ≠ [] ∧ HeadNotDigit [81, 68] ∧ [49, 50].length ≤ 23 ∧
      (∀ b ∈ [49, 50], b ≠ 13 ∧ b < 256) ∧ idleHandle.values.length = 24) ∧
    (generic_read_str (idleHandle.attached 5 (42 :: (decimal 5 ++ [81, 68] ++ [49, 50] ++ 13 :: []))
      []) [81, 68]).payload = some [49, 50] :=
  ⟨⟨by decide, by decide, by decide, by decide, by decide, by decide⟩,
   (C1_decode_round_trip idleHandle [] 5 [81, 68] [49, 50] [] (by decide) (by decide) (by decide)
      (by decide) (by decide) (by decide)).2.2.2.2 (by decide)⟩

/-- Claim C2 (address mismatch): for every handle address `id`, if the digit run `ds` after `'*'`
is empty, or denotes an address `a` in 0..250 with `a ≠ id`, then whatever follows the run
(`rest`, which by maximality of the run does not start with a digit) and whatever mnemonic is
expected, `generic_read_str` returns the null pointer and sets
`lastCommStatus = LSS_CommStatus_ReadWrongID`. -/
theorem C2_address_mismatch (lss : LSS) (tx : List Nat) (id : Nat) (ds rest cmd : List Nat)
    (hds : ∀ c ∈ ds, IsDigit c) (hrest : HeadNotDigit rest)
    (ha : ds = [] ∨ (decValue ds ≤ 250 ∧ decValue ds ≠ id)) :
    (generic_read_str (lss.attached id (42 :: (ds ++ rest)) tx) cmd).ret = false ∧
    (generic_read_str (lss.attached id (42 :: (ds ++ rest)) tx) cmd).payload = none ∧
    (generic_read_str (lss.attached id (42 :: (ds ++ rest)) tx) cmd).lss.lastCommStatus
      = LSS_CommStatus_ReadWrongID := by
  have hscan := read_id_loop_digits ds rest 0 false hds hrest
  have hcond : (!(false || !ds.isEmpty) || idAcc 0 ds != id) = true := by
    rcases ha with h | ⟨h1, h2⟩
    · subst h; simp
    · have h3 : idAcc 0 ds ≠ id := by
        rw [idAcc_eq_decValue ds hds]
        omega
      simp [h3]
  have hgen : generic_read_str (lss.attached id (42 :: (ds ++ rest)) tx) cmd
      = ⟨false, { lss with servoID := id, lastCommStatus := LSS_CommStatus_ReadWrongID,
                           readID := idAcc 0 ds,
                           bus := some ⟨(timed_read rest).2, tx⟩ }, false⟩ := by
    unfold generic_read_str LSS.attached
    simp only [find, LSS_COMMAND_REPLY_START, if_true, Bool.not_true, Bool.false_eq_true,
      if_false]
    rw [hscan]
    simp only [hcond, if_true]
  rw [hgen]
  exact ⟨rfl, rfl, rfl⟩

/-- Instance of C2: handle 5 receives a reply from address 17. -/
theorem C2_address_mismatch_witness :
    ((∀ c ∈ [49, 55], IsDigit c) ∧ HeadNotDigit [81, 68, 49, 13] ∧
      ([49, 55] = [] ∨ (decValue [49, 55] ≤ 250 ∧ decValue [49, 55] ≠ 5))) ∧
    (generic_read_str (idleHandle.attached 5 (42 :: ([49, 55] ++ [81, 68, 49, 13])) [])
      [81, 68]).lss.lastCommStatus = LSS_CommStatus_ReadWrongID :=
  ⟨⟨by decide, by decide, by decide⟩,
   (C2_address_mismatch idleHandle [] 5 [49, 55] [81, 68, 49, 13] [81, 68] (by decide)
      (by decide) (by decide)).2.2⟩

theorem split_at_mismatch (m r : List Nat) (k y : Nat) (hk : k < m.length)
    (hpre : r.take k = m.take k) (hy : r[k]? = some y) (hne : m[k]? ≠ some y) :
    ∃ a x b rest, m = a ++ x :: b ∧ r = a ++ y :: rest ∧ y ≠ x ∧ a.length = k := by
  obtain ⟨hkr, hyr⟩ := List.getElem?_eq_some.1 hy
  refine ⟨m.take k, m[k], m.drop (k + 1), r.drop (k + 1), ?_, ?_, ?_, ?_⟩
  · rw [← List.drop_eq_getElem_cons hk, List.take_append_drop]
  · rw [← hpre, ← hyr, ← List.drop_eq_getElem_cons hkr, List.take_append_drop]
  · intro h
    apply hne
    rw [List.getElem?_eq_getElem hk, h]
  · simp; omega

/-- Claim C3 (identifier mismatch): for every expected mnemonic `m` and every position
`k < length m`, a reply with the matching address whose bytes `r` after the address equal `m`
before position `k` and differ from `m` at position `k` (the first byte of `r` not being a decimal
digit) makes `generic_read_str` return the null pointer and set
`lastCommStatus = LSS_CommStatus_ReadWrongIdentifier`, whatever `k` is. -/
theorem C3_identifier_mismatch (lss : LSS) (tx : List Nat) (id k : Nat) (m r : List Nat) (y : Nat)
    (hid : id ≤ 255) (hk : k < m.length) (hpre : r.take k = m.take k)
    (hy : r[k]? = some y) (hne : m[k]? ≠ some y) (h0 : HeadNotDigit r) :
    (generic_read_str (lss.attached id (42 :: (decimal id ++ r)) tx) m).ret = false ∧
    (generic_read_str (lss.attached id (42 :: (decimal id ++ r)) tx) m).payload = none ∧
    (generic_read_str (lss.attached id (42 :: (decimal id ++ r)) tx) m).lss.lastCommStatus
      = LSS_CommStatus_ReadWrongIdentifier := by
  obtain ⟨a, x, b, rest, rfl, rfl, hxy, _⟩ := split_at_mismatch m r k y hk hpre hy hne
  have hscan := read_id_loop_digits (decimal id) (a ++ y :: rest) 0 false (decimal_digits id) h0
  have hne2 : (decimal id).isEmpty = false := by
    cases h : decimal id with
    | nil => exact absurd h (decimal_ne_nil id)
    | cons a t => rfl
  rw [idAcc_decimal id (by omega)] at hscan
  simp only [hne2, Bool.not_false, Bool.or_true] at hscan
  have hcmd := match_cmd_wrong a x b y rest hxy
  have hgen : generic_read_str (lss.attached id (42 :: (decimal id ++ (a ++ y :: rest))) tx)
        (a ++ x :: b)
      = ⟨false, { lss with servoID := id, lastCommStatus := LSS_CommStatus_ReadWrongIdentifier,
                           readID := id, bus := some ⟨rest, tx⟩ }, false⟩ := by
    unfold generic_read_str LSS.attached
    simp only [find, LSS_COMMAND_REPLY_START, if_true, Bool.not_true, Bool.false_eq_true,
      if_false]
    rw [hscan]
    simp only [Bool.not_true, bne_self_eq_false, Bool.or_self, Bool.false_eq_true, if_false]
    rw [hcmd]
  rw [hgen]
  exact ⟨rfl, rfl, rfl⟩

/-- Instance of C3: expected `QD`, reply `*5QX1` CR on handle 5 (mismatch at the last
character). -/
theorem C3_identifier_mismatch_witness :
    (5 ≤ 255 ∧ 1 < [81, 68].length ∧ [81, 88, 49, 13].take 1 = [81, 68].take 1 ∧
      [81, 88, 49, 13][1]? = some 88 ∧ [81, 68][1]? ≠ some 88 ∧ HeadNotDigit [81, 88, 49, 13]) ∧
    (generic_read_str (idleHandle.attached 5 (42 :: (decimal 5 ++ [81, 88, 49, 13])) [])
      [81, 68]).lss.lastCommStatus = LSS_CommStatus_ReadWrongIdentifier :=
  ⟨⟨by decide, by decide, by decide, by decide, by decide, by decide⟩,
   (C3_identifier_mismatch idleHandle [] 5 1 [81, 68] [81, 88, 49, 13] 88 (by decide)
      (by decide) (by decide) (by decide) (by decide) (by decide)).2.2⟩

/-- Claim C6 (timeout on missing start byte): with a transport attached, for every incoming byte
sequence `g` that contains no `'*'` (the empty sequence included), after which reads time out,
`generic_read_str` returns the null pointer and sets
`lastCommStatus = LSS_CommStatus_ReadTimeout`. -/
theorem C6_timeout_without_start (lss : LSS) (tx : List Nat) (id : Nat) (g cmd : List Nat)
    (hg : 42 ∉ g) :
    (generic_read_str (lss.attached id g tx) cmd).ret = false ∧
    (generic_read_str (lss.attached id g tx) cmd).payload = none ∧
    (generic_read_str (lss.attached id g tx) cmd).lss.lastCommStatus
      = LSS_CommStatus_ReadTimeout := by
  have hgen : generic_read_str (lss.attached id g tx) cmd
      = ⟨false, { lss with servoID := id, lastCommStatus := LSS_CommStatus_ReadTimeout,
                           bus := some ⟨[], tx⟩ }, false⟩ := by
    unfold generic_read_str LSS.attached
    simp only [LSS_COMMAND_REPLY_START, find_none 42 g hg, Bool.not_false, if_true]
  rw [hgen]
  exact ⟨rfl, rfl, rfl⟩

/-- Instance of C6: the bytes `5QD1` CR arrive without a start byte. -/
theorem C6_timeout_without_start_witness :
    42 ∉ [53, 81, 68, 49, 13] ∧
    (generic_read_str (idleHandle.attached 5 [53, 81, 68, 49, 13] []) [81, 68]).lss.lastCommStatus
      = LSS_CommStatus_ReadTimeout :=
  ⟨by decide, (C6_timeout_without_start idleHandle [] 5 [53, 81, 68, 49, 13] [81, 68]
      (by decide)).2.2⟩

/-- Claim C4 (payload overflow) evaluated on the code: on handle 5 expecting `QD`, the stream
`*5QD` followed by 31 bytes `1` and no CR makes `generic_read_str` return a non-null pointer with
`lastCommStatus = LSS_CommStatus_ReadSuccess` after consuming 30 payload bytes, having stored
outside `values[24]`; it does not fail with `LSS_CommStatus_ReadTimeout`. -/
theorem C4_overflow_reports_success :
    (generic_read_str (idleHandle.attached 5 ([42, 53, 81, 68] ++ List.replicate 31 49) [])
      [81, 68]).ret = true ∧
    (generic_read_str (idleHandle.attached 5 ([42, 53, 81, 68] ++ List.replicate 31 49) [])
      [81, 68]).lss.lastCommStatus = LSS_CommStatus_ReadSuccess ∧
    (generic_read_str (idleHandle.attached 5 ([42, 53, 81, 68] ++ List.replicate 31 49) [])
      [81, 68]).ub = true ∧
    (generic_read_str (idleHandle.attached 5 ([42, 53, 81, 68] ++ List.replicate 31 49) [])
      [81, 68]).lss.bus = some ⟨[49], []⟩ := by
  decide

theorem match_cmd_matched (cmd s rx : List Nat)
    (h : match_cmd (timed_read s).1 cmd (timed_read s).2 = .matched rx) : s = cmd ++ rx := by
  induction cmd generalizing s with
  | nil =>
    rw [match_cmd.eq_def] at h
    simp only at h
    split at h <;> cases h
  | cons m ms ih =>
    rw [match_cmd.eq_def] at h
    simp only at h
    split at h
    · cases h
    · rename_i hc
      cases s with
      | nil => simp [timed_read] at hc
      | cons s0 s1 =>
        simp only [timed_read, ne_eq, Decidable.not_not] at hc h
        have hs0 : s0 = m := by omega
        subst hs0
        cases ms with
        | nil =>
          simp only [CmdScan.matched.injEq] at h
          simp [h]
        | cons m2 ms2 =>
          simp only at h
          rw [ih s1 h]
          simp

/-- Claim C5 on the code, refuting the claim as stated: with expected mnemonic `Q`, the reply
`*5QD123` CR on a handle with address 5 is accepted: the status is
`LSS_CommStatus_ReadSuccess`, not `LSS_CommStatus_ReadWrongIdentifier`, and the payload is
`D123`. -/
theorem C5_longer_mnemonic_accepted :
    (generic_read_str (idleHandle.attached 5 [42, 53, 81, 68, 49, 50, 51, 13] [])
      [81]).lss.lastCommStatus ≠ LSS_CommStatus_ReadWrongIdentifier ∧
    (generic_read_str (idleHandle.attached 5 [42, 53, 81, 68, 49, 50, 51, 13] [])
      [81]).lss.lastCommStatus = LSS_CommStatus_ReadSuccess ∧
    (generic_read_str (idleHandle.attached 5 [42, 53, 81, 68, 49, 50, 51, 13] [])
      [81]).payload = some [68, 49, 50, 51] := by
  decide

/-- Claim C5 as amended (leading-mnemonic match): `generic_read_str` accepts a reply only if the
bytes that follow the address digits begin with the expected mnemonic byte for byte; it does not
check that the reply's mnemonic ends there, the following bytes being taken as payload, so with
expected `Q` the reply `*5QD123` CR on a handle with address 5 is accepted with payload `D123`
and `LSS_CommStatus_ReadSuccess`. -/
theorem C5_leading_mnemonic_match (lss : LSS) (tx : List Nat) (id : Nat) (ds rest cmd : List Nat)
    (hds : ∀ c ∈ ds, IsDigit c) (hrest : HeadNotDigit rest)
    (hok : (generic_read_str (lss.attached id (42 :: (ds ++ rest)) tx) cmd).lss.lastCommStatus
      = LSS_CommStatus_ReadSuccess) :
    cmd <+: rest ∧
    ((generic_read_str (idleHandle.attached 5 [42, 53, 81, 68, 49, 50, 51, 13] [])
      [81]).lss.lastCommStatus = LSS_CommStatus_ReadSuccess ∧
     (generic_read_str (idleHandle.attached 5 [42, 53, 81, 68, 49, 50, 51, 13] [])
      [81]).payload = some [68, 49, 50, 51]) := by
  refine ⟨?_, by decide⟩
  have hscan := read_id_loop_digits ds rest 0 false hds hrest
  unfold generic_read_str LSS.attached at hok
  simp only [find, LSS_COMMAND_REPLY_START, if_true, Bool.not_true, Bool.false_eq_true,
    if_false] at hok
  rw [hscan] at hok
  simp only at hok
  split at hok
  · simp at hok
  · split at hok
    · simp at hok
    · simp at hok
    · rename_i rx hm
      exact ⟨rx, (match_cmd_matched cmd rest rx hm).symm⟩

/-- Instance of the amended C5: expected `QD`, reply `*5QD1` CR on handle 5. -/
theorem C5_leading_mnemonic_match_witness :
    ((∀ c ∈ [53], IsDigit c) ∧ HeadNotDigit [81, 68, 49, 13] ∧
      (generic_read_str (idleHandle.attached 5 (42 :: ([53] ++ [81, 68, 49, 13])) [])
        [81, 68]).lss.lastCommStatus = LSS_CommStatus_ReadSuccess) ∧
    [81, 68] <+: [81, 68, 49, 13] :=
  ⟨⟨by decide, by decide, by decide⟩,
   (C5_leading_mnemonic_match idleHandle [] 5 [53] [81, 68, 49, 13] [81, 68] (by decide)
      (by decide) (by decide)).1⟩

/-! ## Properties of the frame encoder -/

theorem decimal_zero : decimal 0 = [48] := by
  rw [decimal]; simp

theorem minus_mem_signedDecimal (v : Int) : 45 ∈ signedDecimal v ↔ v < 0 := by
  unfold signedDecimal
  constructor
  · intro h
    by_contra hv
    rw [if_neg hv] at h
    have := decimal_digits _ 45 h
    unfold IsDigit at this
    omega
  · intro hv
    rw [if_pos hv]
    simp

/-- Claim C7 (command frame without parameter): with a transport attached, for every address
`id`, mnemonic `m` and value `v` (every `int16_t` in particular), `generic_write` appends exactly
`'#' ++ decimal(id) ++ m ++ CR` to the written bytes and `generic_write_val` appends exactly
`'#' ++ decimal(id) ++ m ++ signedDecimal(v) ++ CR`; `decimal(n)` consists of digits only (no
sign), denotes `n`, and starts with `0` only for `n = 0`, where it is the single digit `0`;
`signedDecimal(v)` is `decimal |v|` preceded by `'-'` exactly when `v < 0`. -/
theorem C7_frame_without_parameter (lss : LSS) (rx tx : List Nat) (id : Nat) (m : List Nat)
    (v : Int) :
    ((generic_write (lss.attached id rx tx) m).2.bus
        = some ⟨rx, tx ++ ([35] ++ decimal id ++ m ++ [13])⟩ ∧
     (generic_write_val (lss.attached id rx tx) m v).2.bus
        = some ⟨rx, tx ++ ([35] ++ decimal id ++ m ++ signedDecimal v ++ [13])⟩) ∧
    (∀ n : Nat, (∀ c ∈ decimal n, IsDigit c) ∧ decValue (decimal n) = n ∧
        (n ≠ 0 → (decimal n).head? ≠ some 48)) ∧
    decimal 0 = [48] ∧
    ((v < 0 → signedDecimal v = 45 :: decimal v.natAbs) ∧
     (0 ≤ v → signedDecimal v = decimal v.natAbs) ∧
     (45 ∈ signedDecimal v ↔ v < 0)) := by
  refine ⟨⟨?_, ?_⟩, ?_, decimal_zero, ⟨?_, ?_, minus_mem_signedDecimal v⟩⟩
  · simp [generic_write, LSS.attached, Bus.write, LSS_COMMAND_START, LSS_COMMAND_END]
  · simp [generic_write_val, LSS.attached, Bus.write, LSS_COMMAND_START, LSS_COMMAND_END]
  · intro n
    exact ⟨decimal_digits n, decValue_decimal n, decimal_head n⟩
  · intro hv
    simp [signedDecimal, hv]
  · intro hv
    have h1 : ¬ v < 0 := by omega
    have h2 : v.toNat = v.natAbs := by omega
    simp [signedDecimal, h1, h2]

/-- Claim C8 (command frame with parameter): with a transport attached, for every address `id`,
mnemonic `m`, parameter mnemonic `q` and values `v`, `w` (every `int16_t` in particular),
`generic_write_val_param` appends exactly
`'#' ++ decimal(id) ++ m ++ signedDecimal(v) ++ q ++ signedDecimal(w) ++ CR` to the written
bytes; `move_ch` with address 5, value -900 and chValue 400 appends `#5D-900CH400` CR. -/
theorem C8_frame_with_parameter (lss : LSS) (rx tx : List Nat) (id : Nat) (m q : List Nat)
    (v w : Int) :
    (generic_write_val_param (lss.attached id rx tx) m v q w).2.bus
      = some ⟨rx, tx ++ ([35] ++ decimal id ++ m ++ signedDecimal v ++ q ++ signedDecimal w
          ++ [13])⟩ ∧
    (move_ch (lss.attached 5 rx tx) (-900) 400).2.bus
      = some ⟨rx, tx ++ [35, 53, 68, 45, 57, 48, 48, 67, 72, 52, 48, 48, 13]⟩ := by
  constructor
  · simp [generic_write_val_param, LSS.attached, Bus.write, LSS_COMMAND_START, LSS_COMMAND_END]
  · simp [move_ch, generic_write_val_param, LSS.attached, Bus.write, LSS_COMMAND_START,
      LSS_COMMAND_END, LSS_ACTION_MOVE, LSS_ACTION_PARAMETER_CURRENT_HOLD, signedDecimal, decimal]

/-- Claim C9 (NoBus is the only encode-time failure): each of `generic_write`,
`generic_write_val` and `generic_write_val_param` returns false if and only if no transport is
attached; in that case the handle is left unchanged (no transport, nothing emitted) except for
`lastCommStatus = LSS_CommStatus_WriteNoBus`; with a transport attached each returns true and sets
`LSS_CommStatus_WriteSuccess`, for every mnemonic and every field value. -/
theorem C9_nobus_only_failure (lss : LSS) (m q : List Nat) (v w : Int) :
    (((generic_write lss m).1 = false ↔ lss.bus = none) ∧
     ((generic_write_val lss m v).1 = false ↔ lss.bus = none) ∧
     ((generic_write_val_param lss m v q w).1 = false ↔ lss.bus = none)) ∧
    (lss.bus = none →
      generic_write lss m = (false, { lss with lastCommStatus := LSS_CommStatus_WriteNoBus }) ∧
      generic_write_val lss m v
        = (false, { lss with lastCommStatus := LSS_CommStatus_WriteNoBus }) ∧
      generic_write_val_param lss m v q w
        = (false, { lss with lastCommStatus := LSS_CommStatus_WriteNoBus })) ∧
    (lss.bus ≠ none →
      ((generic_write lss m).1 = true ∧
        (generic_write lss m).2.lastCommStatus = LSS_CommStatus_WriteSuccess) ∧
      ((generic_write_val lss m v).1 = true ∧
        (generic_write_val lss m v).2.lastCommStatus = LSS_CommStatus_WriteSuccess) ∧
      ((generic_write_val_param lss m v q w).1 = true ∧
        (generic_write_val_param lss m v q w).2.lastCommStatus
          = LSS_CommStatus_WriteSuccess)) := by
  cases h : lss.bus with
  | none => simp [generic_write, generic_write_val, generic_write_val_param, h]
  | some b => simp [generic_write, generic_write_val, generic_write_val_param, h]

/-! ## Properties of the value parser -/

theorem convert_dec_digit (c : Nat) (hc : IsDigit c) : convert_dec c = c - 48 := by
  unfold IsDigit at hc
  unfold convert_dec
  omega

theorem charAt_length_append (pre : List Nat) (d : Nat) (ds : List Nat) :
    charAt (pre ++ d :: ds) pre.length = d := by
  induction pre with
  | nil => simp [charAt]
  | cons a pre ih => simpa [charAt] using ih

theorem wrap32_of_range (x : Int) (h1 : -2147483648 ≤ x) (h2 : x < 2147483648) :
    wrap32 x = x := by
  unfold wrap32
  omega

theorem charAt_length (pre : List Nat) : charAt pre pre.length = 0 := by
  simp [charAt, List.getD]

theorem charAt_digits (ds : List Nat) (hds : ∀ c ∈ ds, IsDigit c) (i : Nat) :
    charAt ds i = 0 ∨ IsDigit (charAt ds i) := by
  unfold charAt
  by_cases hi : i < ds.length
  · right
    have h : ds.getD i 0 = ds[i] := by simp [List.getD, List.getElem?_eq_getElem hi]
    rw [h]
    exact hds _ (List.getElem_mem _)
  · left
    simp [List.getD, List.getElem?_eq_none (by omega : ds.length ≤ i)]

theorem str_to_int_dec_digits (ds pre : List Nat) (neg : Bool) (k : Nat) (acc : Int)
    (hds : ∀ c ∈ ds, IsDigit c) (hk : ds.length < k) :
    str_to_int_dec (pre ++ ds) neg k pre.length acc
      = (true, wrap32 (decAcc acc ds * (if neg then -1 else 1))) := by
  induction ds generalizing pre k acc with
  | nil =>
    cases k with
    | zero => simp at hk
    | succ k => simp [str_to_int_dec, charAt_length, decAcc]
  | cons d ds ih =>
    cases k with
    | zero => simp at hk
    | succ k =>
      have hd : IsDigit d := hds d (by simp)
      have hds2 : ∀ c ∈ ds, IsDigit c := fun c hc => hds c (by simp [hc])
      have hd0 : d ≠ 0 := by unfold IsDigit at hd; omega
      have hv : is_valid_dec d = true := by
        unfold IsDigit at hd
        simp [is_valid_dec, is_09, hd.1, hd.2]
      simp only [List.length_cons] at hk
      have h := ih (pre ++ [d]) k (wrap32 (acc * 10 + ((d - 48 : Nat) : Int))) hds2 (by omega)
      simp only [List.append_assoc, List.singleton_append, List.length_append,
        List.length_singleton] at h
      rw [str_to_int_dec]
      simp only [charAt_length_append, hd0, if_false, hv, if_true, convert_dec_digit d hd]
      rw [h]
      simp [decAcc]

theorem decAcc_decimal (n : Nat) (hn : n < 2147483648) : decAcc 0 (decimal n) = (n : Int) := by
  induction n using Nat.strong_induction_on with
  | _ n ih =>
    rw [decimal]
    split
    · have e : (0 : Int) * 10 + ((48 + n - 48 : Nat) : Int) = n := by omega
      unfold decAcc
      rw [List.foldl_cons, List.foldl_nil, e]
      exact wrap32_of_range _ (by omega) (by omega)
    · have h1 := ih (n / 10) (by omega) (by omega)
      have e : ((n / 10 : Nat) : Int) * 10 + ((48 + n % 10 - 48 : Nat) : Int) = n := by omega
      unfold decAcc at h1 ⊢
      rw [List.foldl_append, h1, List.foldl_cons, List.foldl_nil, e]
      exact wrap32_of_range _ (by omega) (by omega)

theorem decimal_length_le (k n : Nat) (hn : n < 10 ^ (k + 1)) : (decimal n).length ≤ k + 1 := by
  induction k generalizing n with
  | zero =>
    rw [decimal]
    simp at hn
    simp [hn]
  | succ k ih =>
    rw [decimal]
    split
    · simp
    · have h10 : 10 ^ (k + 1 + 1) = 10 ^ (k + 1) * 10 := pow_succ 10 (k + 1)
      have h := ih (n / 10) (by omega)
      simp only [List.length_append, List.length_singleton]
      omega

theorem decimal_charAt_zero (n : Nat) : IsDigit (charAt (decimal n) 0) := by
  cases h : decimal n with
  | nil => exact absurd h (decimal_ne_nil n)
  | cons a t =>
    have := decimal_digits n a (by simp [h])
    simpa [charAt] using this

/-- Claim C10 (decimal round trip of `str_to_int`): for every 16-bit signed `n` (0, -1, 32767 and
-32768 included), `str_to_int` applied to the signed decimal rendering of `n`, with the output
cell initialised to 0, returns true and stores exactly `n`. -/
theorem C10_str_to_int_round_trip (n : Int) (hlo : -32768 ≤ n) (hhi : n ≤ 32767) :
    str_to_int (some (signedDecimal n)) 0 = (true, n) := by
  by_cases hneg : n < 0
  · have hlen : (decimal n.natAbs).length ≤ 5 := decimal_length_le 4 n.natAbs (by omega)
    have hd0 := decimal_charAt_zero n.natAbs
    have hloop := str_to_int_dec_digits (decimal n.natAbs) [45] true 10 0
      (decimal_digits n.natAbs) (by omega)
    rw [decAcc_decimal n.natAbs (by omega)] at hloop
    have h1 : charAt (45 :: decimal n.natAbs) 1 = charAt (decimal n.natAbs) 0 := by
      simp [charAt]
    have h10 : charAt (decimal n.natAbs) 0 ≠ 0 := by unfold IsDigit at hd0; omega
    have hres : wrap32 (((n.natAbs : Nat) : Int) * -1) = n := by
      have e : ((n.natAbs : Nat) : Int) * -1 = n := by omega
      rw [e]
      exact wrap32_of_range _ (by omega) (by omega)
    simp only [signedDecimal, hneg, if_true, str_to_int]
    have h0 : charAt (45 :: decimal n.natAbs) 0 = 45 := by simp [charAt]
    simp only [h0, h1, h10, MAX_LENGTH]
    simp only [List.singleton_append, List.length_singleton, if_true] at hloop
    simp only [reduceCtorEq, false_and, if_false, decide_True, decide_False, Bool.true_and,
      Bool.false_eq_true, if_true, Nat.reduceSub, Nat.reduceEqDiff, OfNat.ofNat_ne_zero]
    rw [hloop, hres]
  · have hlen : (decimal n.toNat).length ≤ 5 := decimal_length_le 4 n.toNat (by omega)
    have hd0 := decimal_charAt_zero n.toNat
    have hd1 := charAt_digits (decimal n.toNat) (decimal_digits n.toNat) 1
    have hloop := str_to_int_dec_digits (decimal n.toNat) [] false 11 0
      (decimal_digits n.toNat) (by omega)
    rw [decAcc_decimal n.toNat (by omega)] at hloop
    have h00 : charAt (decimal n.toNat) 0 ≠ 0 := by unfold IsDigit at hd0; omega
    have h45 : charAt (decimal n.toNat) 0 ≠ 45 := by unfold IsDigit at hd0; omega
    have hx : ¬ (charAt (decimal n.toNat) 0 = 48 ∧
        (charAt (decimal n.toNat) 1 = 120 ∨ charAt (decimal n.toNat) 1 = 88)) := by
      unfold IsDigit at hd1; omega
    have hres : wrap32 (((n.toNat : Nat) : Int) * 1) = n := by
      have e : ((n.toNat : Nat) : Int) * 1 = n := by omega
      rw [e]
      exact wrap32_of_range _ (by omega) (by omega)
    simp only [signedDecimal, hneg, if_false, str_to_int]
    simp only [h00, h45, hx, MAX_LENGTH, if_false, decide_False, Bool.false_and,
      Bool.false_eq_true, Nat.sub_zero]
    simp only [List.nil_append, List.length_nil, Bool.false_eq_true, if_false] at hloop
    rw [hloop, hres]

/-- Instance of C10: the most negative 16-bit value. -/
theorem C10_str_to_int_round_trip_witness :
    ((-32768 : Int) ≤ -32768 ∧ (-32768 : Int) ≤ 32767) ∧
    str_to_int (some (signedDecimal (-32768))) 0 = (true, -32768) :=
  ⟨⟨by decide, by decide⟩, C10_str_to_int_round_trip (-32768) (by decide) (by decide)⟩

theorem wrap32_mul_add (a d : Int) : wrap32 (wrap32 a * 16 + d) = wrap32 (a * 16 + d) := by
  unfold wrap32
  omega

theorem wrap32_mod (a : Int) : wrap32 a % 4294967296 = a % 4294967296 := by
  unfold wrap32
  omega

theorem is_valid_hex_iff (c : Nat) : is_valid_hex c = true ↔ IsHexDigit c := by
  unfold is_valid_hex is_AF is_af is_09 IsHexDigit
  simp only [Bool.or_eq_true, Bool.and_eq_true, decide_eq_true_eq]
  omega

theorem is_valid_dec_iff (c : Nat) : is_valid_dec c = true ↔ IsDigit c := by
  unfold is_valid_dec is_09 IsDigit
  simp only [Bool.and_eq_true, decide_eq_true_eq]

theorem convert_hex_hexDigit (c : Nat) (hc : IsHexDigit c) : convert_hex c = hexDigit c := by
  unfold IsHexDigit at hc
  unfold convert_hex hexDigit is_09 is_AF is_af
  by_cases h1 : 48 ≤ c ∧ c ≤ 57
  · have e : (decide (c ≥ 48) && decide (c ≤ 57)) = true := by simp [h1.1, h1.2]
    rw [if_pos e, if_pos h1]
    omega
  · have e : ¬ (decide (c ≥ 48) && decide (c ≤ 57)) = true := by
      simp only [Bool.and_eq_true, decide_eq_true_eq]; omega
    rw [if_neg e, if_neg h1]
    by_cases h2 : 65 ≤ c ∧ c ≤ 70
    · have e2 : (decide (c ≥ 65) && decide (c ≤ 70)) = true := by simp [h2.1, h2.2]
      rw [if_pos e2, if_pos h2]
      omega
    · have e2 : ¬ (decide (c ≥ 65) && decide (c ≤ 70)) = true := by
        simp only [Bool.and_eq_true, decide_eq_true_eq]; omega
      have h3 : 97 ≤ c ∧ c ≤ 102 := by omega
      have e3 : (decide (c ≥ 97) && decide (c ≤ 102)) = true := by simp [h3.1, h3.2]
      rw [if_neg e2, if_neg h2, if_pos e3, if_pos h3]
      omega

theorem hexDigit_lt (c : Nat) : hexDigit c < 16 := by
  unfold hexDigit
  split
  · omega
  · split
    · omega
    · split <;> omega

theorem charAt_eq_zero (s : List Nat) (i : Nat) (hs : ∀ b ∈ s, b ≠ 0) (h : charAt s i = 0) :
    s.length ≤ i := by
  by_contra hlt
  have hi : i < s.length := by omega
  have e : charAt s i = s[i] := by simp [charAt, List.getD, List.getElem?_eq_getElem hi]
  exact hs _ (List.getElem_mem hi) (e ▸ h)

theorem charAt_mem (s : List Nat) (i : Nat) (hi : i < s.length) : charAt s i ∈ s := by
  have e : charAt s i = s[i] := by simp [charAt, List.getD, List.getElem?_eq_getElem hi]
  rw [e]
  exact List.getElem_mem hi

theorem str_to_int_hex_digits (h pre : List Nat) (k : Nat) (acc : Int)
    (hh : ∀ c ∈ h, IsHexDigit c) (hk : h.length < k) :
    str_to_int_hex (pre ++ h) k pre.length acc = (true, hexAcc acc h) := by
  induction h generalizing pre k acc with
  | nil =>
    cases k with
    | zero => simp at hk
    | succ k => simp [str_to_int_hex, charAt_length, hexAcc]
  | cons d h ih =>
    cases k with
    | zero => simp at hk
    | succ k =>
      have hd : IsHexDigit d := hh d (by simp)
      have hh2 : ∀ c ∈ h, IsHexDigit c := fun c hc => hh c (by simp [hc])
      have hd0 : d ≠ 0 := by unfold IsHexDigit at hd; omega
      have hv : is_valid_hex d = true := (is_valid_hex_iff d).2 hd
      simp only [List.length_cons] at hk
      have h2 := ih (pre ++ [d]) k (wrap32 (acc * 16 + (convert_hex d : Int))) hh2 (by omega)
      simp only [List.append_assoc, List.singleton_append, List.length_append,
        List.length_singleton] at h2
      rw [str_to_int_hex]
      simp only [charAt_length_append, hd0, if_false, hv, if_true]
      rw [h2]
      simp [hexAcc]

theorem hexAcc_eq_hexValue (h : List Nat) (hh : ∀ c ∈ h, IsHexDigit c) :
    hexAcc 0 h = wrap32 ((hexValue h : Nat) : Int) := by
  induction h using List.reverseRecOn with
  | nil =>
    simp only [hexAcc, hexValue, List.foldl_nil, Nat.cast_zero]
    exact (wrap32_of_range 0 (by omega) (by omega)).symm
  | append_singleton h d ih =>
    have hd : IsHexDigit d := hh d (by simp)
    have hh2 : ∀ c ∈ h, IsHexDigit c := fun c hc => hh c (by simp [hc])
    have h1 := ih hh2
    unfold hexAcc hexValue at h1 ⊢
    rw [List.foldl_append, List.foldl_append, h1, List.foldl_cons, List.foldl_nil,
      List.foldl_cons, List.foldl_nil, wrap32_mul_add, convert_hex_hexDigit d hd]
    congr 1

theorem str_to_int_hex_true (s : List Nat) (k i : Nat) (acc : Int) (hs : ∀ b ∈ s, b ≠ 0)
    (h : (str_to_int_hex s k i acc).1 = true) :
    s.length < i + k ∧ ∀ j, i ≤ j → j < s.length → IsHexDigit (charAt s j) := by
  induction k generalizing i acc with
  | zero => simp [str_to_int_hex] at h
  | succ k ih =>
    rw [str_to_int_hex] at h
    by_cases h0 : charAt s i = 0
    · have hl := charAt_eq_zero s i hs h0
      exact ⟨by omega, fun j h1 h2 => by omega⟩
    · rw [if_neg h0] at h
      by_cases hv : is_valid_hex (charAt s i) = true
      · rw [if_pos hv] at h
        obtain ⟨h1, h2⟩ := ih (i + 1) _ h
        refine ⟨by omega, fun j hj1 hj2 => ?_⟩
        by_cases hji : j = i
        · subst hji; exact (is_valid_hex_iff _).1 hv
        · exact h2 j (by omega) hj2
      · rw [if_neg hv] at h
        simp at h

theorem str_to_int_dec_true (s : List Nat) (neg : Bool) (k i : Nat) (acc : Int)
    (hs : ∀ b ∈ s, b ≠ 0) (h : (str_to_int_dec s neg k i acc).1 = true) :
    s.length < i + k ∧ ∀ j, i ≤ j → j < s.length → IsDigit (charAt s j) := by
  induction k generalizing i acc with
  | zero => simp [str_to_int_dec] at h
  | succ k ih =>
    rw [str_to_int_dec] at h
    by_cases h0 : charAt s i = 0
    · have hl := charAt_eq_zero s i hs h0
      exact ⟨by omega, fun j h1 h2 => by omega⟩
    · rw [if_neg h0] at h
      by_cases hv : is_valid_dec (charAt s i) = true
      · rw [if_pos hv] at h
        obtain ⟨h1, h2⟩ := ih (i + 1) _ h
        refine ⟨by omega, fun j hj1 hj2 => ?_⟩
        by_cases hji : j = i
        · subst hji; exact (is_valid_dec_iff _).1 hv
        · exact h2 j (by omega) hj2
      · rw [if_neg hv] at h
        simp at h

theorem mem_drop_charAt (s : List Nat) (n c : Nat) (hc : c ∈ s.drop n) :
    ∃ j, n ≤ j ∧ j < s.length ∧ charAt s j = c := by
  obtain ⟨i, hi, hget⟩ := List.mem_iff_getElem.1 hc
  have hi2 : n + i < s.length := by
    simp only [List.length_drop] at hi
    omega
  refine ⟨n + i, by omega, hi2, ?_⟩
  rw [List.getElem_drop] at hget
  simp [charAt, List.getD, List.getElem?_eq_getElem hi2, hget]

theorem decimalBody_eq_drop (s : List Nat) :
    decimalBody s = s.drop (if charAt s 0 = 45 then 1 else 0) := by
  cases s with
  | nil => simp [decimalBody, charAt]
  | cons a t =>
    by_cases ha : a = 45
    · subst ha; simp [decimalBody, charAt]
    · have e : decimalBody (a :: t) = a :: t := by
        unfold decimalBody
        split
        · rename_i h; injection h with h1 h2; exact absurd h1 ha
        · rfl
      simp [e, charAt, ha]

/-- What acceptance by `str_to_int` implies for a C string: fewer than 11 characters, not empty,
not a bare minus sign, and only digits of the respective base after the mark or sign. -/
theorem str_to_int_true (s : List Nat) (cell : Int) (hs : ∀ b ∈ s, b ≠ 0)
    (h : (str_to_int (some s) cell).1 = true) :
    s.length < 11 ∧ s ≠ [] ∧ s ≠ [45] ∧
    (HasHexMark s → ∀ c ∈ s.drop 2, IsHexDigit c) ∧
    (¬ HasHexMark s → ∀ c ∈ decimalBody s, IsDigit c) := by
  unfold str_to_int at h
  simp only at h
  by_cases h0 : charAt s 0 = 0
  · rw [if_pos h0] at h; simp at h
  · rw [if_neg h0] at h
    have hne : s ≠ [] := by
      intro e; subst e; simp [charAt] at h0
    by_cases hx : charAt s 0 = 48 ∧ (charAt s 1 = 120 ∨ charAt s 1 = 88)
    · rw [if_pos hx] at h
      have h45 : s ≠ [45] := by
        intro e; subst e; simp [charAt] at hx
      refine ⟨?_, hne, h45, ?_, fun hn => absurd hx hn⟩
      · by_cases h2 : charAt s 2 = 0
        · have := charAt_eq_zero s 2 hs h2
          omega
        · rw [if_neg h2] at h
          have := (str_to_int_hex_true s _ 2 cell hs h).1
          simp only [MAX_LENGTH] at this
          omega
      · intro _ c hc
        obtain ⟨j, hj1, hj2, hj3⟩ := mem_drop_charAt s 2 c hc
        by_cases h2 : charAt s 2 = 0
        · have := charAt_eq_zero s 2 hs h2
          omega
        · rw [if_neg h2] at h
          rw [← hj3]
          exact (str_to_int_hex_true s _ 2 cell hs h).2 j hj1 hj2
    · rw [if_neg hx] at h
      by_cases hn : (decide (charAt s 0 = 45) && decide (charAt s 1 = 0)) = true
      · rw [if_pos hn] at h; simp at h
      · rw [if_neg hn] at h
        have h45 : s ≠ [45] := by
          intro e; subst e; simp [charAt] at hn
        obtain ⟨h1, h2⟩ := str_to_int_dec_true s _ _ _ cell hs h
        refine ⟨?_, hne, h45, fun hm => absurd hm hx, ?_⟩
        · simp only [MAX_LENGTH] at h1
          by_cases hneg : charAt s 0 = 45
          · simp only [hneg, decide_True, if_true] at h1; omega
          · simp only [hneg, decide_False, Bool.false_eq_true, if_false] at h1; omega
        · intro _ c hc
          rw [decimalBody_eq_drop] at hc
          by_cases hneg : charAt s 0 = 45
          · simp only [hneg, if_true] at hc
            simp only [hneg, decide_True, if_true] at h2
            obtain ⟨j, hj1, hj2, hj3⟩ := mem_drop_charAt s 1 c hc
            rw [← hj3]; exact h2 j hj1 hj2
          · simp only [hneg, if_false] at hc
            simp only [hneg, decide_False, Bool.false_eq_true, if_false] at h2
            obtain ⟨j, hj1, hj2, hj3⟩ := mem_drop_charAt s 0 c hc
            rw [← hj3]; exact h2 j hj1 hj2

theorem str_to_int_hex_marked (x : Nat) (h : List Nat) (hx : x = 120 ∨ x = 88)
    (h1 : 1 ≤ h.length) (h8 : h.length ≤ 8) (hh : ∀ c ∈ h, IsHexDigit c) :
    str_to_int (some (48 :: x :: h)) 0 = (true, wrap32 ((hexValue h : Nat) : Int)) := by
  have hloop := str_to_int_hex_digits h [48, x] 9 0 hh (by omega)
  rw [hexAcc_eq_hexValue h hh] at hloop
  cases h with
  | nil => simp at h1
  | cons d t =>
    have hd : IsHexDigit d := hh d (by simp)
    have hd0 : d ≠ 0 := by unfold IsHexDigit at hd; omega
    have c0 : charAt (48 :: x :: d :: t) 0 = 48 := rfl
    have c1 : charAt (48 :: x :: d :: t) 1 = x := rfl
    have c2 : charAt (48 :: x :: d :: t) 2 = d := rfl
    have hxm : (48 = 48 ∧ (x = 120 ∨ x = 88)) := ⟨rfl, hx⟩
    unfold str_to_int
    simp only [c0, c1, c2, MAX_LENGTH, OfNat.ofNat_ne_zero, if_false, hxm, if_true, hd0,
      Nat.reduceSub]
    exact hloop

/-- Claim C11 (hex parsing of `str_to_int`, output cell initialised to 0): `0x` and `0X` alone
return true with value 0; for every string `h` of 1 to 8 hexadecimal digits in either case,
`0x ++ h` and `0X ++ h` return true and store the `int32_t` whose value is that of `h` as a
base-16 number modulo 2^32 (the number itself when it is below 2^31, so `0x1A` gives 26); and
every C string with the `0x` or `0X` mark that contains a non-hexadecimal character after the
mark (such as `0xZZ`) returns false. -/
theorem C11_hex_parsing :
    (str_to_int (some [48, 120]) 0 = (true, 0) ∧ str_to_int (some [48, 88]) 0 = (true, 0)) ∧
    (∀ (x : Nat) (h : List Nat), (x = 120 ∨ x = 88) → 1 ≤ h.length → h.length ≤ 8 →
      (∀ c ∈ h, IsHexDigit c) →
        str_to_int (some (48 :: x :: h)) 0 = (true, wrap32 ((hexValue h : Nat) : Int)) ∧
        wrap32 ((hexValue h : Nat) : Int) % 4294967296 = ((hexValue h : Nat) : Int) % 4294967296 ∧
        (hexValue h < 2147483648 → wrap32 ((hexValue h : Nat) : Int) = (hexValue h : Nat))) ∧
    str_to_int (some [48, 120, 49, 65]) 0 = (true, 26) ∧
    (∀ (s : List Nat) (cell : Int), HasHexMark s → (∀ b ∈ s, b ≠ 0) →
      (∃ c ∈ s.drop 2, ¬ IsHexDigit c) → (str_to_int (some s) cell).1 = false) ∧
    (str_to_int (some [48, 120, 90, 90]) 0).1 = false := by
  refine ⟨⟨by decide, by decide⟩, ?_, ?_, ?_, by decide⟩
  · intro x h hx h1 h8 hh
    exact ⟨str_to_int_hex_marked x h hx h1 h8 hh, wrap32_mod _,
      fun hlt => wrap32_of_range _ (by omega) (by omega)⟩
  · have e := str_to_int_hex_marked 120 [49, 65] (Or.inl rfl) (by decide) (by decide)
      (by decide)
    have hv : hexValue [49, 65] = 26 := by decide
    rw [hv] at e
    rw [e, wrap32_of_range _ (by decide) (by decide)]
    rfl
  · intro s cell hm hs ⟨c, hc, hbad⟩
    by_contra hres
    have ht : (str_to_int (some s) cell).1 = true := by
      cases hb : (str_to_int (some s) cell).1 with
      | true => rfl
      | false => exact absurd hb hres
    exact hbad ((str_to_int_true s cell hs ht).2.2.2.1 hm c hc)

/-- Claim C12 (malformed decimal input): `str_to_int` returns false for the empty string, for a
bare `-`, and for every C string without the `0x`/`0X` mark in which some character after the
optional leading `-` is not a decimal digit; a second `-` (`--5`, `1-2`) and a leading `+` (`+5`)
are such inputs. -/
theorem C12_malformed_decimal :
    (∀ cell : Int, (str_to_int (some []) cell).1 = false) ∧
    (∀ cell : Int, (str_to_int (some [45]) cell).1 = false) ∧
    (∀ (s : List Nat) (cell : Int), ¬ HasHexMark s → (∀ b ∈ s, b ≠ 0) →
      (∃ c ∈ decimalBody s, ¬ IsDigit c) → (str_to_int (some s) cell).1 = false) ∧
    ((str_to_int (some [45, 45, 53]) 0).1 = false ∧ (str_to_int (some [49, 45, 50]) 0).1 = false ∧
      (str_to_int (some [43, 53]) 0).1 = false) := by
  refine ⟨?_, ?_, ?_, ⟨by decide, by decide, by decide⟩⟩
  · intro cell; simp [str_to_int, charAt]
  · intro cell; simp [str_to_int, charAt]
  · intro s cell hm hs ⟨c, hc, hbad⟩
    by_contra hres
    have ht : (str_to_int (some s) cell).1 = true := by
      cases hb : (str_to_int (some s) cell).1 with
      | true => rfl
      | false => exact absurd hb hres
    exact hbad ((str_to_int_true s cell hs ht).2.2.2.2 hm c hc)

/-- Claim C13 (maximum length) evaluated on the code: the 11-character input `-2147483648` with
the cell initialised to 0 makes `str_to_int` return false, and so does every C string of 11 or
more characters, whatever the cell holds: the longest accepted input has 10 characters. -/
theorem C13_eleven_characters_rejected :
    (str_to_int (some [45, 50, 49, 52, 55, 52, 56, 51, 54, 52, 56]) 0).1 = false ∧
    (∀ (s : List Nat) (cell : Int), (∀ b ∈ s, b ≠ 0) → 11 ≤ s.length →
      (str_to_int (some s) cell).1 = false) := by
  have hgen : ∀ (s : List Nat) (cell : Int), (∀ b ∈ s, b ≠ 0) → 11 ≤ s.length →
      (str_to_int (some s) cell).1 = false := by
    intro s cell hs hlen
    by_contra hres
    have ht : (str_to_int (some s) cell).1 = true := by
      cases hb : (str_to_int (some s) cell).1 with
      | true => rfl
      | false => exact absurd hb hres
    have := (str_to_int_true s cell hs ht).1
    omega
  exact ⟨hgen _ 0 (by decide) (by decide), hgen⟩

/-! ## Properties of the queries -/

theorem generic_write_attached (lss : LSS) (id : Nat) (rx tx m : List Nat) :
    generic_write (lss.attached id rx tx) m =
      (true, ({ lss with lastCommStatus := LSS_CommStatus_WriteSuccess }).attached id rx
        (tx ++ ([35] ++ decimal id ++ m ++ [13]))) := by
  simp [generic_write, LSS.attached, Bus.write, LSS_COMMAND_START, LSS_COMMAND_END]

theorem generic_read_str_frame (lss : LSS) (tx : List Nat) (id : Nat) (m p tail : List Nat)
    (hid : id < 65536) (hm : m ≠ []) (hm0 : HeadNotDigit m)
    (hp : p.length ≤ 23) (hcr : ∀ b ∈ p, b ≠ 13 ∧ b < 256) (hbuf : lss.values.length = 24) :
    generic_read_str (lss.attached id (42 :: (decimal id ++ m ++ p ++ 13 :: tail)) tx) m
      = ⟨true, { lss with servoID := id, lastCommStatus := LSS_CommStatus_ReadSuccess,
                          readID := id, values := p ++ 0 :: lss.values.drop (p.length + 1),
                          bus := some ⟨tail, tx⟩ }, false⟩ := by
  obtain ⟨m0, ms, rfl⟩ : ∃ m0 ms, m = m0 :: ms := by
    cases m with
    | nil => exact absurd rfl hm
    | cons a t => exact ⟨a, t, rfl⟩
  have hnd : HeadNotDigit ((m0 :: ms) ++ (p ++ 13 :: tail)) :=
    headNotDigit_append _ _ hm hm0
  have hscan := read_id_loop_digits (decimal id) ((m0 :: ms) ++ (p ++ 13 :: tail)) 0 false
    (decimal_digits id) hnd
  have hne : (decimal id).isEmpty = false := by
    cases h : decimal id with
    | nil => exact absurd h (decimal_ne_nil id)
    | cons a t => rfl
  rw [idAcc_decimal id hid] at hscan
  simp only [List.cons_append, timed_read, hne, Bool.not_false, Bool.or_true] at hscan
  have hcmd := match_cmd_ok m0 ms (p ++ 13 :: tail)
  have hpay := read_payload_ok p 30 (m0 : Int) [] lss.values tail (by omega) hcr (by omega)
  simp only [List.length_nil, List.nil_append, Nat.zero_add] at hpay
  obtain ⟨t, hdrop⟩ : ∃ t, lss.values.drop p.length = t :: lss.values.drop (p.length + 1) := by
    have hlt : p.length < lss.values.length := by omega
    exact ⟨_, List.drop_eq_getElem_cons hlt⟩
  unfold generic_read_str LSS.attached
  simp only [find, LSS_COMMAND_REPLY_START, if_true, Bool.not_true, Bool.false_eq_true,
    if_false, List.append_assoc, List.cons_append]
  rw [hscan]
  simp only [Bool.not_true, bne_self_eq_false, Bool.or_self, Bool.false_eq_true, if_false]
  rw [hcmd]
  simp only [LSS_MAX_TOTAL_COMMAND_LENGTH, Nat.add_one_sub_one, Nat.sub_zero]
  simp only [hpay, hdrop]
  have hlt : ¬ (p ++ t :: lss.values.drop (p.length + 1)).length ≤ p.length := by simp
  simp [set_length_append, hlt]

theorem str_to_int_zero : str_to_int (some [48]) 0 = (true, 0) := by
  have h := str_to_int_dec_digits [48] [] false 11 0 (by decide) (by decide)
  have e : decAcc 0 [48] = 0 := by
    unfold decAcc
    rw [List.foldl_cons, List.foldl_nil]
    exact wrap32_of_range _ (by decide) (by decide)
  rw [e] at h
  have e2 : wrap32 (0 * (if false = true then -1 else 1)) = 0 :=
    wrap32_of_range _ (by decide) (by decide)
  rw [e2] at h
  have c0 : charAt [48] 0 = 48 := rfl
  have c1 : charAt [48] 1 = 0 := rfl
  unfold str_to_int
  simp only [c0, c1, MAX_LENGTH]
  simpa using h

theorem get_position_frame (lss : LSS) (tx : List Nat) (id : Nat) (p tail : List Nat)
    (hid : id < 65536) (hp : p.length ≤ 23) (hcr : ∀ b ∈ p, b ≠ 13 ∧ b < 256)
    (hnul : ∀ b ∈ p, b ≠ 0) (hbuf : lss.values.length = 24) :
    (get_position (lss.attached id
        (42 :: (decimal id ++ LSS_QUERY_POSITION ++ p ++ 13 :: tail)) tx)).ret
      = (if (str_to_int (some p) 0).1 then (str_to_int (some p) 0).2 else 0) ∧
    (get_position (lss.attached id
        (42 :: (decimal id ++ LSS_QUERY_POSITION ++ p ++ 13 :: tail)) tx)).lss.lastCommStatus
      = LSS_CommStatus_ReadSuccess := by
  have hr := generic_read_str_frame { lss with lastCommStatus := LSS_CommStatus_WriteSuccess }
    (tx ++ ([35] ++ decimal id ++ LSS_QUERY_POSITION ++ [13])) id LSS_QUERY_POSITION p tail
    hid (by decide) (by decide) hp hcr hbuf
  have hc : c_str (p ++ 0 :: List.drop (p.length + 1) lss.values) = p :=
    c_str_append_nul p _ hnul
  unfold get_position
  simp only [generic_write_attached, Bool.not_true, Bool.false_eq_true, if_false, hr,
    ReadStr.payload, if_true, hc]
  by_cases hconv : (str_to_int (some p) 0).1 = true
  · simp only [hconv, if_true, and_self]
  · simp only [hconv, if_false, Bool.false_eq_true, and_self]

/-- Claim C14 (failure detectable through status for `get_position`) evaluated on the code: on
handle 5 the correctly framed reply `*5QDabc` CR, whose payload does not parse as an integer,
makes `get_position` return 0 and leave `lastCommStatus = LSS_CommStatus_ReadSuccess`, which is
exactly the outcome of the reply `*5QD0` CR carrying the genuine position 0. -/
theorem C14_unparsed_payload_reads_success :
    ((get_position (idleHandle.attached 5 [42, 53, 81, 68, 97, 98, 99, 13] [])).ret = 0 ∧
     (get_position (idleHandle.attached 5 [42, 53, 81, 68, 97, 98, 99, 13] [])).lss.lastCommStatus
        = LSS_CommStatus_ReadSuccess) ∧
    ((get_position (idleHandle.attached 5 [42, 53, 81, 68, 48, 13] [])).ret = 0 ∧
     (get_position (idleHandle.attached 5 [42, 53, 81, 68, 48, 13] [])).lss.lastCommStatus
        = LSS_CommStatus_ReadSuccess) := by
  have e1 : [42, 53, 81, 68, 97, 98, 99, 13]
      = 42 :: (decimal 5 ++ LSS_QUERY_POSITION ++ [97, 98, 99] ++ 13 :: []) := by
    simp [decimal, LSS_QUERY_POSITION]
  have e2 : [42, 53, 81, 68, 48, 13]
      = 42 :: (decimal 5 ++ LSS_QUERY_POSITION ++ [48] ++ 13 :: []) := by
    simp [decimal, LSS_QUERY_POSITION]
  have h1 := get_position_frame idleHandle [] 5 [97, 98, 99] [] (by decide) (by decide)
    (by decide) (by decide) (by decide)
  have h2 := get_position_frame idleHandle [] 5 [48] [] (by decide) (by decide)
    (by decide) (by decide) (by decide)
  have hs1 : (str_to_int (some [97, 98, 99]) 0).1 = false := by decide
  rw [← e1, hs1] at h1
  rw [← e2, str_to_int_zero] at h2
  exact ⟨⟨by simpa using h1.1, h1.2⟩, ⟨by simpa using h2.1, h2.2⟩⟩

theorem wrap16_of_range (x : Int) (h1 : -32768 ≤ x) (h2 : x < 32768) : wrap16 x = x := by
  unfold wrap16
  omega

theorem get_first_position_frame (lss : LSS) (tx : List Nat) (id : Nat) (p tail : List Nat)
    (hid : id < 65536) (hp : p.length ≤ 23) (hcr : ∀ b ∈ p, b ≠ 13 ∧ b < 256)
    (hnul : ∀ b ∈ p, b ≠ 0) (hbuf : lss.values.length = 24) :
    get_first_position (lss.attached id
        (42 :: (decimal id ++ LSS_QUERY_FIRST_POSITION ++ p ++ 13 :: tail)) tx)
      = ⟨⟨if strcmp p LSS_FIRST_POSITION_DISABLED = 0 then 0
          else if (str_to_int (some p) 0).1 then wrap16 (str_to_int (some p) 0).2 else 0,
         { lss with servoID := id, lastCommStatus := LSS_CommStatus_ReadSuccess, readID := id,
                    values := p ++ 0 :: lss.values.drop (p.length + 1),
                    bus := some ⟨tail, tx ++ ([35] ++ decimal id ++ LSS_QUERY_FIRST_POSITION
                      ++ [13])⟩ },
         false⟩,
         if strcmp p LSS_FIRST_POSITION_DISABLED = 0 then none
          else some (str_to_int (some p) 0)⟩ := by
  have hr := generic_read_str_frame { lss with lastCommStatus := LSS_CommStatus_WriteSuccess }
    (tx ++ ([35] ++ decimal id ++ LSS_QUERY_FIRST_POSITION ++ [13])) id
    LSS_QUERY_FIRST_POSITION p tail hid (by decide) (by decide) hp hcr hbuf
  have hc : c_str (p ++ 0 :: List.drop (p.length + 1) lss.values) = p :=
    c_str_append_nul p _ hnul
  unfold get_first_position
  simp only [generic_write_attached, Bool.not_true, Bool.false_eq_true, if_false, hr,
    ReadStr.payload, if_true, hc]
  by_cases hdis : strcmp p LSS_FIRST_POSITION_DISABLED = 0
  · simp only [hdis, if_true]
  · simp only [hdis, if_false]
    by_cases hconv : (str_to_int (some p) 0).1 = true
    · simp only [hconv, if_true]
    · simp only [hconv, if_false, Bool.false_eq_true]

theorem get_is_first_position_enabled_frame (lss : LSS) (tx : List Nat) (id : Nat)
    (p tail : List Nat) (hid : id < 65536) (hp : p.length ≤ 23)
    (hcr : ∀ b ∈ p, b ≠ 13 ∧ b < 256) (hnul : ∀ b ∈ p, b ≠ 0) (hbuf : lss.values.length = 24) :
    get_is_first_position_enabled (lss.attached id
        (42 :: (decimal id ++ LSS_QUERY_FIRST_POSITION ++ p ++ 13 :: tail)) tx)
      = ⟨decide (strcmp p LSS_FIRST_POSITION_DISABLED ≠ 0),
         { lss with servoID := id, lastCommStatus := LSS_CommStatus_ReadSuccess, readID := id,
                    values := p ++ 0 :: lss.values.drop (p.length + 1),
                    bus := some ⟨tail, tx ++ ([35] ++ decimal id ++ LSS_QUERY_FIRST_POSITION
                      ++ [13])⟩ },
         false⟩ := by
  have hr := generic_read_str_frame { lss with lastCommStatus := LSS_CommStatus_WriteSuccess }
    (tx ++ ([35] ++ decimal id ++ LSS_QUERY_FIRST_POSITION ++ [13])) id
    LSS_QUERY_FIRST_POSITION p tail hid (by decide) (by decide) hp hcr hbuf
  have hc : c_str (p ++ 0 :: List.drop (p.length + 1) lss.values) = p :=
    c_str_append_nul p _ hnul
  unfold get_is_first_position_enabled
  simp only [generic_write_attached, Bool.not_true, Bool.false_eq_true, if_false, hr,
    ReadStr.payload, if_true, hc]

theorem strcmp_eq_zero_iff (a b : List Nat) (ha : ∀ x ∈ a, x ≠ 0) (hb : ∀ x ∈ b, x ≠ 0) :
    strcmp a b = 0 ↔ a = b := by
  induction a generalizing b with
  | nil =>
    cases b with
    | nil => simp [strcmp]
    | cons y b =>
      have hy : y ≠ 0 := hb y (by simp)
      simp only [strcmp, reduceCtorEq, iff_false]
      omega
  | cons x a ih =>
    have hx : x ≠ 0 := ha x (by simp)
    cases b with
    | nil =>
      simp only [strcmp, reduceCtorEq, iff_false]
      omega
    | cons y b =>
      have ha2 : ∀ z ∈ a, z ≠ 0 := fun z hz => ha z (by simp [hz])
      have hb2 : ∀ z ∈ b, z ≠ 0 := fun z hz => hb z (by simp [hz])
      by_cases hxy : x = y
      · subst hxy
        simp [strcmp, ih b ha2 hb2]
      · have hne : (x : Int) - (y : Int) ≠ 0 := by omega
        simp [strcmp, hxy, hne]

theorem c_str_no_nul (buf : List Nat) : ∀ x ∈ c_str buf, x ≠ 0 := by
  intro x hx
  unfold c_str at hx
  have := List.mem_takeWhile_imp hx
  simpa using this

theorem read_success_ret (lss : LSS) (cmd : List Nat)
    (h : (generic_read_str lss cmd).lss.lastCommStatus = LSS_CommStatus_ReadSuccess) :
    (generic_read_str lss cmd).ret = true := by
  unfold generic_read_str at h ⊢
  cases hb : lss.bus with
  | none => simp [hb] at h
  | some bus =>
    simp only [hb] at h ⊢
    by_cases hf : (!(find LSS_COMMAND_REPLY_START bus.rx).1) = true
    · simp [hf] at h
    · simp only [hf, if_false, Bool.false_eq_true] at h ⊢
      by_cases hid : (!(read_id_loop (find LSS_COMMAND_REPLY_START bus.rx).2 0 false).valid_field
          || (read_id_loop (find LSS_COMMAND_REPLY_START bus.rx).2 0 false).readID
              != lss.servoID) = true
      · simp [hid] at h
      · simp only [hid, if_false, Bool.false_eq_true] at h ⊢
        cases hm : match_cmd (read_id_loop (find LSS_COMMAND_REPLY_START bus.rx).2 0 false).c cmd
            (read_id_loop (find LSS_COMMAND_REPLY_START bus.rx).2 0 false).rx with
        | wrong rx => simp [hm] at h
        | overread rx => simp [hm] at h
        | matched rx =>
          simp only [hm] at h ⊢
          split
          · rename_i hc
            rw [if_pos hc] at h
            simp at h
          · rfl

/-- Claim C16 (`get_is_first_position_enabled` is the predicate payload differs from the
sentinel): for a correctly framed reply with payload `p` (a C string of at most 23 bytes without
CR) it returns true exactly when `p` differs from `DIS` (so false for `DIS`), with
`LSS_CommStatus_ReadSuccess`; for every handle state, when the call ends with
`LSS_CommStatus_ReadSuccess` it returns true exactly when the string in the payload buffer
differs from `DIS`; when the call ends with any other status (write failed or read failed) it
returns false; without a transport it returns false with `LSS_CommStatus_WriteNoBus`. -/
theorem C16_enabled_iff_payload_differs :
    (∀ (lss : LSS) (tx tail p : List Nat) (id : Nat), id ≤ 255 → p.length ≤ 23 →
      (∀ b ∈ p, b ≠ 13 ∧ b < 256) → (∀ b ∈ p, b ≠ 0) → lss.values.length = 24 →
      (((get_is_first_position_enabled (lss.attached id
          (42 :: (decimal id ++ LSS_QUERY_FIRST_POSITION ++ p ++ 13 :: tail)) tx)).ret = true
          ↔ p ≠ LSS_FIRST_POSITION_DISABLED) ∧
       (get_is_first_position_enabled (lss.attached id
          (42 :: (decimal id ++ LSS_QUERY_FIRST_POSITION ++ p ++ 13 :: tail)) tx)).lss.lastCommStatus
          = LSS_CommStatus_ReadSuccess)) ∧
    (∀ lss : LSS,
      (get_is_first_position_enabled lss).lss.lastCommStatus = LSS_CommStatus_ReadSuccess →
      ((get_is_first_position_enabled lss).ret = true
        ↔ c_str (get_is_first_position_enabled lss).lss.values ≠ LSS_FIRST_POSITION_DISABLED)) ∧
    (∀ lss : LSS,
      (get_is_first_position_enabled lss).lss.lastCommStatus ≠ LSS_CommStatus_ReadSuccess →
      (get_is_first_position_enabled lss).ret = false) ∧
    (∀ lss : LSS, lss.bus = none →
      (get_is_first_position_enabled lss).ret = false ∧
      (get_is_first_position_enabled lss).lss.lastCommStatus = LSS_CommStatus_WriteNoBus) := by
  have hdis : ∀ x ∈ LSS_FIRST_POSITION_DISABLED, x ≠ 0 := by decide
  refine ⟨?_, ?_, ?_, ?_⟩
  · intro lss tx tail p id hid hp hcr hnul hbuf
    rw [get_is_first_position_enabled_frame lss tx id p tail (by omega) hp hcr hnul hbuf]
    simp [strcmp_eq_zero_iff p _ hnul hdis]
  · intro lss h
    unfold get_is_first_position_enabled at h ⊢
    cases hb : lss.bus with
    | none => simp [generic_write, hb] at h
    | some bus =>
      have hw : (generic_write lss LSS_QUERY_FIRST_POSITION).1 = true := by
        simp [generic_write, hb]
      simp only [hw, Bool.not_true, Bool.false_eq_true, if_false] at h ⊢
      by_cases hs : (generic_read_str (generic_write lss LSS_QUERY_FIRST_POSITION).2
          LSS_QUERY_FIRST_POSITION).lss.lastCommStatus = LSS_CommStatus_ReadSuccess
      · have hret := read_success_ret _ _ hs
        simp only [hs, if_true, ReadStr.payload, hret]
        simp [strcmp_eq_zero_iff _ _ (c_str_no_nul _) hdis]
      · rw [if_neg hs] at h
        exact absurd h hs
  · intro lss h
    unfold get_is_first_position_enabled at h ⊢
    by_cases hw : (!(generic_write lss LSS_QUERY_FIRST_POSITION).1) = true
    · simp only [hw, if_true]
    · simp only [hw, if_false, Bool.false_eq_true] at h ⊢
      by_cases hs : (generic_read_str (generic_write lss LSS_QUERY_FIRST_POSITION).2
          LSS_QUERY_FIRST_POSITION).lss.lastCommStatus = LSS_CommStatus_ReadSuccess
      · simp only [hs, if_true] at h
        have hret := read_success_ret _ _ hs
        simp only [ReadStr.payload, hret, if_true] at h
        exact absurd hs h
      · simp only [hs, if_false]
  · intro lss hb
    simp [get_is_first_position_enabled, generic_write, hb]

/-! ## Status register and framing properties -/

/-- Claim C17 (status overwrite without residue): for each of `generic_write`,
`generic_write_val`, `generic_write_val_param` and `generic_read_str`, running the call from two
handle states that differ only in `lastCommStatus` gives the same result, final
`lastCommStatus` included; for instance on handle 5 a read that fails with
`LSS_CommStatus_ReadWrongID` (reply from address 9) followed by a read of the next frame leaves
`LSS_CommStatus_ReadSuccess`, and a read that times out followed by a write leaves
`LSS_CommStatus_WriteSuccess`. -/
theorem C17_status_overwritten (lss : LSS) (st1 st2 : LSS_LastCommStatus) (m q : List Nat)
    (v w : Int) :
    (generic_write { lss with lastCommStatus := st1 } m
        = generic_write { lss with lastCommStatus := st2 } m ∧
     generic_write_val { lss with lastCommStatus := st1 } m v
        = generic_write_val { lss with lastCommStatus := st2 } m v ∧
     generic_write_val_param { lss with lastCommStatus := st1 } m v q w
        = generic_write_val_param { lss with lastCommStatus := st2 } m v q w ∧
     generic_read_str { lss with lastCommStatus := st1 } m
        = generic_read_str { lss with lastCommStatus := st2 } m) ∧
    ((generic_read_str (idleHandle.attached 5
        [42, 57, 81, 68, 49, 13, 42, 53, 81, 68, 55, 13] []) [81, 68]).lss.lastCommStatus
        = LSS_CommStatus_ReadWrongID ∧
     (generic_read_str (generic_read_str (idleHandle.attached 5
        [42, 57, 81, 68, 49, 13, 42, 53, 81, 68, 55, 13] []) [81, 68]).lss
        [81, 68]).lss.lastCommStatus = LSS_CommStatus_ReadSuccess) ∧
    ((generic_read_str (idleHandle.attached 5 [81, 68] []) [81, 68]).lss.lastCommStatus
        = LSS_CommStatus_ReadTimeout ∧
     (generic_write (generic_read_str (idleHandle.attached 5 [81, 68] []) [81, 68]).lss
        [81, 68]).2.lastCommStatus = LSS_CommStatus_WriteSuccess) := by
  refine ⟨⟨rfl, rfl, rfl, rfl⟩, ⟨by decide, by decide⟩, ⟨by decide, ?_⟩⟩
  simp [generic_write, generic_read_str, LSS.attached, idleHandle, find,
    LSS_COMMAND_REPLY_START]

/-- Claim C18 (leading noise is absorbed): for every byte sequence `g` containing no `'*'` and
every stream beginning with `'*'`, `generic_read_str` reading `g` followed by the stream gives
exactly the result of reading the stream alone: same returned pointer, same buffer, same
`lastCommStatus`, same remaining input. -/
theorem C18_leading_noise_absorbed (lss : LSS) (id : Nat) (g s tx cmd : List Nat)
    (hg : 42 ∉ g) :
    generic_read_str (lss.attached id (g ++ 42 :: s) tx) cmd
      = generic_read_str (lss.attached id (42 :: s) tx) cmd := by
  unfold generic_read_str LSS.attached
  simp only [LSS_COMMAND_REPLY_START, find_skip 42 g s hg, find, if_true]

/-- Instance of C18: three noise bytes before the reply `*5QD1` CR on handle 5. -/
theorem C18_leading_noise_absorbed_witness :
    42 ∉ [49, 13, 81] ∧
    generic_read_str (idleHandle.attached 5 ([49, 13, 81] ++ 42 :: [53, 81, 68, 49, 13]) [])
        [81, 68]
      = generic_read_str (idleHandle.attached 5 (42 :: [53, 81, 68, 49, 13]) []) [81, 68] :=
  ⟨by decide, C18_leading_noise_absorbed idleHandle 5 [49, 13, 81] [53, 81, 68, 49, 13] []
      [81, 68] (by decide)⟩

theorem read_payload_timeout (p : List Nat) (k : Nat) (c0 : Int) (done todo : List Nat)
    (hk : p.length < k) (hp : ∀ b ∈ p, b ≠ 13 ∧ b < 256) (hlen : p.length ≤ todo.length) :
    read_payload k ⟨c0, done.length, done ++ todo, p, false⟩ =
      ⟨-1, done.length + p.length, done ++ p ++ todo.drop p.length, [], false⟩ := by
  induction p generalizing k c0 done todo with
  | nil =>
    cases k with
    | zero => simp at hk
    | succ k => simp [read_payload, timed_read]
  | cons b p ih =>
    cases k with
    | zero => simp at hk
    | succ k =>
      cases todo with
      | nil => simp at hlen
      | cons t todo =>
        have hb := hp b (by simp)
        have hp2 : ∀ x ∈ p, x ≠ 13 ∧ x < 256 := fun x hx => hp x (by simp [hx])
        have hb1 : ¬ ((b : Int) < 0 ∨ (b : Int) = 13) := by omega
        have hb2 : b % 256 = b := Nat.mod_eq_of_lt hb.2
        simp only [List.length_cons] at hk hlen
        have h := ih k (b : Int) (done ++ [b]) todo (by omega) hp2 (by omega)
        simp only [List.length_append, List.length_singleton, List.append_assoc,
          List.singleton_append] at h
        rw [read_payload]
        simp only [timed_read, LSS_COMMAND_END, Nat.cast_ofNat, hb1, if_false,
          Int.toNat_ofNat, hb2, set_length_append, Bool.false_or]
        have hlt : ¬ (done ++ t :: todo).length ≤ done.length := by simp
        simp only [hlt, decide_False]
        rw [h]
        simp [Nat.add_assoc, Nat.add_comm 1]

/-- Claim C19 (unterminated payload times out): on a handle with address `id` and expected
mnemonic `m` (non-empty, first byte not a decimal digit), when the stream is
`'*' ++ decimal(id) ++ m` followed by at most 23 payload bytes, none a CR, after which reads
time out, `generic_read_str` returns the null pointer and sets
`lastCommStatus = LSS_CommStatus_ReadTimeout`. -/
theorem C19_unterminated_payload_times_out (lss : LSS) (tx : List Nat) (id : Nat)
    (m p : List Nat) (hid : id ≤ 255) (hm : m ≠ []) (hm0 : HeadNotDigit m)
    (hp : p.length ≤ 23) (hcr : ∀ b ∈ p, b ≠ 13 ∧ b < 256) (hbuf : lss.values.length = 24) :
    (generic_read_str (lss.attached id (42 :: (decimal id ++ m ++ p)) tx) m).ret = false ∧
    (generic_read_str (lss.attached id (42 :: (decimal id ++ m ++ p)) tx) m).payload = none ∧
    (generic_read_str (lss.attached id (42 :: (decimal id ++ m ++ p)) tx) m).lss.lastCommStatus
      = LSS_CommStatus_ReadTimeout := by
  obtain ⟨m0, ms, rfl⟩ : ∃ m0 ms, m = m0 :: ms := by
    cases m with
    | nil => exact absurd rfl hm
    | cons a t => exact ⟨a, t, rfl⟩
  have hnd : HeadNotDigit ((m0 :: ms) ++ p) := headNotDigit_append _ _ hm hm0
  have hscan := read_id_loop_digits (decimal id) ((m0 :: ms) ++ p) 0 false
    (decimal_digits id) hnd
  have hne : (decimal id).isEmpty = false := by
    cases h : decimal id with
    | nil => exact absurd h (decimal_ne_nil id)
    | cons a t => rfl
  rw [idAcc_decimal id (by omega)] at hscan
  simp only [List.cons_append, timed_read, hne, Bool.not_false, Bool.or_true] at hscan
  have hcmd := match_cmd_ok m0 ms p
  have hpay := read_payload_timeout p 30 (m0 : Int) [] lss.values (by omega) hcr (by omega)
  simp only [List.length_nil, List.nil_append, Nat.zero_add] at hpay
  have hgen : (generic_read_str (lss.attached id (42 :: (decimal id ++ (m0 :: ms) ++ p)) tx)
      (m0 :: ms)).ret = false ∧
      (generic_read_str (lss.attached id (42 :: (decimal id ++ (m0 :: ms) ++ p)) tx)
      (m0 :: ms)).lss.lastCommStatus = LSS_CommStatus_ReadTimeout := by
    unfold generic_read_str LSS.attached
    simp only [find, LSS_COMMAND_REPLY_START, if_true, Bool.not_true, Bool.false_eq_true,
      if_false, List.append_assoc, List.cons_append]
    rw [hscan]
    simp only [Bool.not_true, bne_self_eq_false, Bool.or_self, Bool.false_eq_true, if_false]
    rw [hcmd]
    simp only [LSS_MAX_TOTAL_COMMAND_LENGTH, Nat.add_one_sub_one, Nat.sub_zero]
    simp only [hpay]
    simp
  refine ⟨hgen.1, ?_, hgen.2⟩
  unfold ReadStr.payload
  rw [hgen.1]
  rfl

/-- Instance of C19: the reply `*5QD12` on handle 5 stops before its CR. -/
theorem C19_unterminated_payload_times_out_witness :
    (5 ≤ 255 ∧ [81, 68] ≠ [] ∧ HeadNotDigit [81, 68] ∧ [49, 50].length ≤ 23 ∧
      (∀ b ∈ [49, 50], b ≠ 13 ∧ b < 256) ∧ idleHandle.values.length = 24) ∧
    (generic_read_str (idleHandle.attached 5 (42 :: (decimal 5 ++ [81, 68] ++ [49, 50])) [])
      [81, 68]).lss.lastCommStatus = LSS_CommStatus_ReadTimeout :=
  ⟨⟨by decide, by decide, by decide, by decide, by decide, by decide⟩,
   (C19_unterminated_payload_times_out idleHandle [] 5 [81, 68] [49, 50] (by decide)
      (by decide) (by decide) (by decide) (by decide) (by decide)).2.2⟩

theorem signedDecimal_length_le (v : Int) (hlo : -32768 ≤ v) (hhi : v ≤ 32767) :
    (signedDecimal v).length ≤ 6 := by
  unfold signedDecimal
  split
  · have := decimal_length_le 4 v.natAbs (by omega)
    simp only [List.length_cons]
    omega
  · have := decimal_length_le 4 v.toNat (by omega)
    omega

/-- Claim C20 (frame length bound): for every 8-bit address `id`, every mnemonic `m` of at most 5
characters, every parameter mnemonic `q` of at most 2 characters and all `int16_t` values `v`,
`w`, the frames appended by `generic_write`, `generic_write_val` and `generic_write_val_param`
are at most 24 bytes long, CR included, hence within the 30 byte maximum; every command mnemonic
defined in LSS.cpp has at most 5 characters (`RESET` has 5) and every parameter mnemonic at most
2. -/
theorem C20_frame_length_bound (lss : LSS) (rx tx : List Nat) (id : Nat) (m q : List Nat)
    (v w : Int) (hid : id ≤ 255) (hm : m.length ≤ 5) (hq : q.length ≤ 2)
    (hv : -32768 ≤ v ∧ v ≤ 32767) (hw : -32768 ≤ w ∧ w ≤ 32767) :
    (∃ f, (generic_write (lss.attached id rx tx) m).2.bus = some ⟨rx, tx ++ f⟩ ∧
        f.length ≤ 24 ∧ f.length ≤ 30) ∧
    (∃ f, (generic_write_val (lss.attached id rx tx) m v).2.bus = some ⟨rx, tx ++ f⟩ ∧
        f.length ≤ 24 ∧ f.length ≤ 30) ∧
    (∃ f, (generic_write_val_param (lss.attached id rx tx) m v q w).2.bus
        = some ⟨rx, tx ++ f⟩ ∧ f.length ≤ 24 ∧ f.length ≤ 30) ∧
    ((∀ s ∈ commandMnemonics, (cstring s).length ≤ 5) ∧
     (∃ s ∈ commandMnemonics, cstring s = [82, 69, 83, 69, 84]) ∧
     (∀ s ∈ parameterMnemonics, (cstring s).length ≤ 2)) := by
  have hd := decimal_length_le 2 id (by omega)
  have hsv := signedDecimal_length_le v hv.1 hv.2
  have hsw := signedDecimal_length_le w hw.1 hw.2
  refine ⟨⟨[35] ++ decimal id ++ m ++ [13], ?_, ?_⟩,
    ⟨[35] ++ decimal id ++ m ++ signedDecimal v ++ [13], ?_, ?_⟩,
    ⟨[35] ++ decimal id ++ m ++ signedDecimal v ++ q ++ signedDecimal w ++ [13], ?_, ?_⟩,
    ⟨by decide, by decide, by decide⟩⟩
  · simp [generic_write, LSS.attached, Bus.write, LSS_COMMAND_START, LSS_COMMAND_END]
  · simp only [List.length_append, List.length_singleton]; omega
  · simp [generic_write_val, LSS.attached, Bus.write, LSS_COMMAND_START, LSS_COMMAND_END]
  · simp only [List.length_append, List.length_singleton]; omega
  · simp [generic_write_val_param, LSS.attached, Bus.write, LSS_COMMAND_START, LSS_COMMAND_END]
  · simp only [List.length_append, List.length_singleton]; omega

/-- Instance of C20: `move_ch`-style frame on address 250 with the extreme values. -/
theorem C20_frame_length_bound_witness :
    (250 ≤ 255 ∧ [82, 69, 83, 69, 84].length ≤ 5 ∧ [67, 72].length ≤ 2 ∧
      ((-32768 : Int) ≤ -32768 ∧ (-32768 : Int) ≤ 32767) ∧
      ((-32768 : Int) ≤ -32768 ∧ (-32768 : Int) ≤ 32767)) ∧
    (∃ f, (generic_write_val_param (idleHandle.attached 250 [] []) [82, 69, 83, 69, 84]
        (-32768) [67, 72] (-32768)).2.bus = some ⟨[], [] ++ f⟩ ∧ f.length ≤ 24 ∧ f.length ≤ 30) :=
  ⟨⟨by decide, by decide, by decide, ⟨by decide, by decide⟩, ⟨by decide, by decide⟩⟩,
   (C20_frame_length_bound idleHandle [] [] 250 [82, 69, 83, 69, 84] [67, 72] (-32768) (-32768)
      (by decide) (by decide) (by decide) ⟨by decide, by decide⟩ ⟨by decide, by decide⟩).2.2.1⟩

/-! ## Constructor and outcome classification -/

/-- Claim C21 (every individual address is constructible) evaluated on the code: for the default
address 0 and for the maximum address 250 the expression checked by `assert_param` at the start
of the constructor is false; it holds exactly for `0 < id < 250`; in every case the handle's
`servoID` is set to `id`. -/
theorem C21_assertion_excludes_bounds :
    (LSS_init idleHandle LSS_ID_DEFAULT none 115200).1 = false ∧
    (LSS_init idleHandle LSS_ID_MAX none 115200).1 = false ∧
    (∀ (lss : LSS) (id : Nat) (huart : Option Bus) (baud : Nat),
      ((LSS_init lss id huart baud).1 = true ↔ 0 < id ∧ id < 250) ∧
      (LSS_init lss id huart baud).2.servoID = id) := by
  refine ⟨by decide, by decide, ?_⟩
  intro lss id huart baud
  simp [LSS_init, init_bus, LSS_ID_MIN, LSS_ID_MAX]

theorem read_str_cases (lss : LSS) (cmd : List Nat) :
    (lss.bus = none ∧
      generic_read_str lss cmd
        = ⟨false, { lss with lastCommStatus := LSS_CommStatus_ReadNoBus }, false⟩) ∨
    (lss.bus ≠ none ∧
      (((generic_read_str lss cmd).ret = true ∧
        (generic_read_str lss cmd).lss.lastCommStatus = LSS_CommStatus_ReadSuccess) ∨
       ((generic_read_str lss cmd).ret = false ∧
        ((generic_read_str lss cmd).lss.lastCommStatus = LSS_CommStatus_ReadTimeout ∨
         (generic_read_str lss cmd).lss.lastCommStatus = LSS_CommStatus_ReadWrongID ∨
         (generic_read_str lss cmd).lss.lastCommStatus
            = LSS_CommStatus_ReadWrongIdentifier)))) := by
  unfold generic_read_str
  cases hb : lss.bus with
  | none => left; simp
  | some bus =>
    right
    refine ⟨by simp, ?_⟩
    simp only
    by_cases hf : (!(find LSS_COMMAND_REPLY_START bus.rx).1) = true
    · simp [hf]
    · simp only [hf, if_false, Bool.false_eq_true]
      by_cases hid : (!(read_id_loop (find LSS_COMMAND_REPLY_START bus.rx).2 0 false).valid_field
          || (read_id_loop (find LSS_COMMAND_REPLY_START bus.rx).2 0 false).readID
              != lss.servoID) = true
      · simp [hid]
      · simp only [hid, if_false, Bool.false_eq_true]
        cases hm : match_cmd (read_id_loop (find LSS_COMMAND_REPLY_START bus.rx).2 0 false).c cmd
            (read_id_loop (find LSS_COMMAND_REPLY_START bus.rx).2 0 false).rx with
        | wrong rx => simp
        | overread rx => simp
        | matched rx =>
          simp only
          split
          · simp
          · simp

/-- Claim C22 (payload iff success): for every handle state, expected mnemonic and incoming
stream, `generic_read_str` returns a non-null pointer if and only if it leaves
`lastCommStatus = LSS_CommStatus_ReadSuccess`; when it returns null the status is one of
`LSS_CommStatus_ReadNoBus`, `LSS_CommStatus_ReadTimeout`, `LSS_CommStatus_ReadWrongID`,
`LSS_CommStatus_ReadWrongIdentifier`; the status is `LSS_CommStatus_ReadNoBus` exactly when no
transport is attached, and then the handle is unchanged apart from the status (nothing is
consumed). -/
theorem C22_payload_iff_success (lss : LSS) (cmd : List Nat) :
    ((generic_read_str lss cmd).ret = true ↔
      (generic_read_str lss cmd).lss.lastCommStatus = LSS_CommStatus_ReadSuccess) ∧
    ((generic_read_str lss cmd).payload ≠ none ↔
      (generic_read_str lss cmd).lss.lastCommStatus = LSS_CommStatus_ReadSuccess) ∧
    ((generic_read_str lss cmd).ret = false →
      (generic_read_str lss cmd).lss.lastCommStatus = LSS_CommStatus_ReadNoBus ∨
      (generic_read_str lss cmd).lss.lastCommStatus = LSS_CommStatus_ReadTimeout ∨
      (generic_read_str lss cmd).lss.lastCommStatus = LSS_CommStatus_ReadWrongID ∨
      (generic_read_str lss cmd).lss.lastCommStatus = LSS_CommStatus_ReadWrongIdentifier) ∧
    ((generic_read_str lss cmd).lss.lastCommStatus = LSS_CommStatus_ReadNoBus ↔
      lss.bus = none) ∧
    (lss.bus = none →
      (generic_read_str lss cmd).lss
        = { lss with lastCommStatus := LSS_CommStatus_ReadNoBus }) := by
  have hpay : ((generic_read_str lss cmd).payload ≠ none ↔
      (generic_read_str lss cmd).ret = true) := by
    unfold ReadStr.payload
    cases (generic_read_str lss cmd).ret <;> simp
  rw [hpay]
  rcases read_str_cases lss cmd with ⟨hb, h⟩ | ⟨hb, ⟨h1, h2⟩ | ⟨h1, h2⟩⟩
  · rw [h]
    simp [hb]
  · rw [h1, h2]
    simp [hb]
  · rw [h1]
    rcases h2 with h2 | h2 | h2 <;> rw [h2] <;> simp [hb]

theorem read_address_check (lss : LSS) (tx : List Nat) (id : Nat) (ds rest cmd : List Nat)
    (hds : ∀ c ∈ ds, IsDigit c) (hrest : HeadNotDigit rest) :
    ((generic_read_str (lss.attached id (42 :: (ds ++ rest)) tx) cmd).lss.lastCommStatus
        = LSS_CommStatus_ReadWrongID ↔ ¬ (ds ≠ [] ∧ decValue ds % 65536 = id)) := by
  have hscan := read_id_loop_digits ds rest 0 false hds hrest
  rw [idAcc_eq_decValue ds hds] at hscan
  by_cases hpass : ds ≠ [] ∧ decValue ds % 65536 = id
  · have hne : ds.isEmpty = false := by
      cases ds with
      | nil => exact absurd rfl hpass.1
      | cons a t => rfl
    rw [hne, hpass.2] at hscan
    simp only [Bool.not_false, Bool.or_true] at hscan
    simp only [hpass, ne_eq, not_false_eq_true, and_self, not_true_eq_false, iff_false]
    unfold generic_read_str LSS.attached
    simp only [find, LSS_COMMAND_REPLY_START, if_true, Bool.not_true, Bool.false_eq_true,
      if_false]
    rw [hscan]
    simp only [Bool.not_true, bne_self_eq_false, Bool.or_self, Bool.false_eq_true, if_false]
    cases hm : match_cmd (timed_read rest).1 cmd (timed_read rest).2 with
    | wrong rx => simp
    | overread rx => simp
    | matched rx =>
      simp only
      split
      · simp
      · simp
  · simp only [hpass, not_false_eq_true, iff_true]
    have hcond : (!(false || !ds.isEmpty) || decValue ds % 65536 != id) = true := by
      by_cases he : ds = []
      · simp [he]
      · have : decValue ds % 65536 ≠ id := fun h => hpass ⟨he, h⟩
        simp [this]
    unfold generic_read_str LSS.attached
    simp only [find, LSS_COMMAND_REPLY_START, if_true, Bool.not_true, Bool.false_eq_true,
      if_false]
    rw [hscan]
    simp only [hcond, if_true]

/-- Claim C26 (reply address compared modulo 2^16, leading zeros ignored): for a reply whose
digit run after `'*'` is `ds`, `generic_read_str` fails the address check (status
`LSS_CommStatus_ReadWrongID`) exactly unless `ds` is non-empty and its decimal value reduced
modulo 65536 equals the handle's address; so for a handle with address 5 and expected mnemonic
`QD` both `*005QD1` CR and `*65541QD1` CR are accepted with payload `1` and
`LSS_CommStatus_ReadSuccess`. -/
theorem C26_address_modulo (lss : LSS) (tx : List Nat) (id : Nat) (ds rest cmd : List Nat)
    (hds : ∀ c ∈ ds, IsDigit c) (hrest : HeadNotDigit rest) :
    ((generic_read_str (lss.attached id (42 :: (ds ++ rest)) tx) cmd).lss.lastCommStatus
        ≠ LSS_CommStatus_ReadWrongID ↔ (ds ≠ [] ∧ decValue ds % 65536 = id)) ∧
    ((generic_read_str (idleHandle.attached 5 [42, 48, 48, 53, 81, 68, 49, 13] [])
        [81, 68]).payload = some [49] ∧
     (generic_read_str (idleHandle.attached 5 [42, 48, 48, 53, 81, 68, 49, 13] [])
        [81, 68]).lss.lastCommStatus = LSS_CommStatus_ReadSuccess) ∧
    ((generic_read_str (idleHandle.attached 5 [42, 54, 53, 53, 52, 49, 81, 68, 49, 13] [])
        [81, 68]).payload = some [49] ∧
     (generic_read_str (idleHandle.attached 5 [42, 54, 53, 53, 52, 49, 81, 68, 49, 13] [])
        [81, 68]).lss.lastCommStatus = LSS_CommStatus_ReadSuccess) := by
  refine ⟨?_, ⟨by decide, by decide⟩, ⟨by decide, by decide⟩⟩
  rw [Ne, read_address_check lss tx id ds rest cmd hds hrest, not_not]

/-- Instance of C26: the digit run `65541` on a handle with address 5. -/
theorem C26_address_modulo_witness :
    ((∀ c ∈ [54, 53, 53, 52, 49], IsDigit c) ∧ HeadNotDigit [81, 68, 49, 13]) ∧
    ((generic_read_str (idleHandle.attached 5 (42 :: ([54, 53, 53, 52, 49] ++ [81, 68, 49, 13]))
        []) [81, 68]).lss.lastCommStatus ≠ LSS_CommStatus_ReadWrongID
      ↔ ([54, 53, 53, 52, 49] ≠ [] ∧ decValue [54, 53, 53, 52, 49] % 65536 = 5)) :=
  ⟨⟨by decide, by decide⟩,
   (C26_address_modulo idleHandle [] 5 [54, 53, 53, 52, 49] [81, 68, 49, 13] [81, 68]
      (by decide) (by decide)).1⟩

theorem foldl_dec_ge (b : List Nat) (a : Nat) :
    a ≤ b.foldl (fun x c => x * 10 + (c - 48)) a := by
  induction b generalizing a with
  | nil => simp
  | cons c b ih =>
    simp only [List.foldl_cons]
    have := ih (a * 10 + (c - 48))
    omega

theorem decValue_proper_initial (id : Nat) (pre suf : List Nat) (hid : id < 65536)
    (hsplit : decimal id = pre ++ suf) (hpre : pre ≠ []) (hsuf : suf ≠ []) :
    decValue pre % 65536 ≠ id := by
  have hv := decValue_decimal id
  rw [hsplit] at hv
  unfold decValue at hv
  rw [List.foldl_append] at hv
  cases suf with
  | nil => exact absurd rfl hsuf
  | cons c s =>
    simp only [List.foldl_cons] at hv
    have hge := foldl_dec_ge s (List.foldl (fun a c => a * 10 + (c - 48)) 0 pre * 10 + (c - 48))
    rw [hv] at hge
    intro h
    unfold decValue at h
    have h0 : id = 0 := by omega
    subst h0
    rw [decimal_zero] at hsplit
    have hl := congrArg List.length hsplit
    cases pre with
    | nil => exact absurd rfl hpre
    | cons a t => simp at hl

theorem match_cmd_short (a : List Nat) (x : Nat) (b : List Nat) :
    match_cmd (timed_read a).1 (a ++ x :: b) (timed_read a).2 = .wrong [] := by
  induction a with
  | nil =>
    simp only [List.nil_append, timed_read]
    rw [match_cmd.eq_def]
    simp
  | cons a0 a ih =>
    simp only [List.cons_append, timed_read]
    rw [match_cmd.eq_def]
    cases a with
    | nil => simpa using ih
    | cons a1 a => simpa using ih

theorem headNotDigit_initial (a suf : List Nat) (h : HeadNotDigit (a ++ suf)) :
    HeadNotDigit a := by
  cases a with
  | nil => intro c hc; simp at hc
  | cons x t => intro c hc; exact h c (by simpa using hc)

/-- Claim C27 (a timeout between the start byte and the end of the mnemonic is never reported as
a timeout): on a handle with address `id` and expected mnemonic `m` (first byte not a decimal
digit), when the stream is `'*'` followed by `pre`, a strict initial segment of
`decimal(id) ++ m`, after which reads time out, `generic_read_str` returns the null pointer and
sets `LSS_CommStatus_ReadWrongID` when `pre` is shorter than `decimal(id)` and
`LSS_CommStatus_ReadWrongIdentifier` when `pre` contains all of `decimal(id)`; in neither case
`LSS_CommStatus_ReadTimeout`. -/
theorem C27_early_timeout_status (lss : LSS) (tx : List Nat) (id : Nat) (m pre suf : List Nat)
    (hid : id ≤ 255) (hm0 : HeadNotDigit m) (hsplit : decimal id ++ m = pre ++ suf)
    (hsuf : suf ≠ []) :
    (generic_read_str (lss.attached id (42 :: pre) tx) m).ret = false ∧
    (pre.length < (decimal id).length →
      (generic_read_str (lss.attached id (42 :: pre) tx) m).lss.lastCommStatus
        = LSS_CommStatus_ReadWrongID) ∧
    ((decimal id).length ≤ pre.length →
      (generic_read_str (lss.attached id (42 :: pre) tx) m).lss.lastCommStatus
        = LSS_CommStatus_ReadWrongIdentifier) ∧
    (generic_read_str (lss.attached id (42 :: pre) tx) m).lss.lastCommStatus
      ≠ LSS_CommStatus_ReadTimeout := by
  have hA : ∀ a' x b, pre = decimal id ++ a' → m = a' ++ x :: b →
      generic_read_str (lss.attached id (42 :: pre) tx) m
        = ⟨false, { lss with servoID := id, lastCommStatus := LSS_CommStatus_ReadWrongIdentifier,
                             readID := id, bus := some ⟨[], tx⟩ }, false⟩ := by
    intro a' x b hp hm
    subst hp hm
    have hnd : HeadNotDigit a' := headNotDigit_initial a' (x :: b) hm0
    have hscan := read_id_loop_digits (decimal id) a' 0 false (decimal_digits id) hnd
    have hne : (decimal id).isEmpty = false := by
      cases h : decimal id with
      | nil => exact absurd h (decimal_ne_nil id)
      | cons a t => rfl
    rw [idAcc_decimal id (by omega)] at hscan
    simp only [hne, Bool.not_false, Bool.or_true] at hscan
    unfold generic_read_str LSS.attached
    simp only [find, LSS_COMMAND_REPLY_START, if_true, Bool.not_true, Bool.false_eq_true,
      if_false]
    rw [hscan]
    simp only [Bool.not_true, bne_self_eq_false, Bool.or_self, Bool.false_eq_true, if_false]
    rw [match_cmd_short a' x b]
  rcases List.append_eq_append_iff.1 hsplit with ⟨a', hp, hm⟩ | ⟨c', hd, hs⟩
  · cases suf with
    | nil => exact absurd rfl hsuf
    | cons x b =>
      rw [hA a' x b hp hm]
      refine ⟨rfl, ?_, fun _ => rfl, by simp⟩
      intro hlt
      rw [hp] at hlt
      simp at hlt
  · by_cases hc : c' = []
    · subst hc
      simp only [List.append_nil, List.nil_append] at hd hs
      subst hs
      cases suf with
      | nil => exact absurd rfl hsuf
      | cons x b =>
        rw [hA [] x b (by simp [hd]) (by simp)]
        refine ⟨rfl, ?_, fun _ => rfl, by simp⟩
        intro hlt
        rw [hd] at hlt
        simp at hlt
    · have hdig : ∀ c ∈ pre, IsDigit c := fun c hcm =>
        decimal_digits id c (by rw [hd]; simp [hcm])
      have hnd : HeadNotDigit ([] : List Nat) := by intro c hcm; simp at hcm
      have hchk := read_address_check lss tx id pre [] m hdig hnd
      simp only [List.append_nil] at hchk
      have hbad : ¬ (pre ≠ [] ∧ decValue pre % 65536 = id) := by
        intro ⟨h1, h2⟩
        exact decValue_proper_initial id pre c' (by omega) hd h1 hc h2
      have hst := hchk.2 hbad
      have hlen : pre.length < (decimal id).length := by
        rw [hd, List.length_append]
        have : 0 < c'.length := List.length_pos.2 hc
        omega
      refine ⟨?_, fun _ => hst, fun hge => by omega, by rw [hst]; simp⟩
      rcases read_str_cases (lss.attached id (42 :: pre) tx) m with ⟨_, h⟩ | ⟨_, ⟨h1, h2⟩ | ⟨h1, _⟩⟩
      · rw [h]
      · rw [hst] at h2; simp at h2
      · exact h1

/-- Instance of C27: on handle 25 expecting `QD`, the stream `*25Q` stops inside the mnemonic. -/
theorem C27_early_timeout_status_witness :
    (25 ≤ 255 ∧ HeadNotDigit [81, 68] ∧ [50, 53] ++ [81, 68] = [50, 53, 81] ++ [68] ∧
      [68] ≠ ([] : List Nat)) ∧
    (generic_read_str (idleHandle.attached 25 (42 :: [50, 53, 81]) []) [81, 68]).ret = false :=
  have e : decimal 25 = [50, 53] := by simp [decimal]
  ⟨⟨by decide, by decide, by decide, by decide⟩,
   (C27_early_timeout_status idleHandle [] 25 [81, 68] [50, 53, 81] [68] (by decide)
      (by decide) (by rw [e]; rfl) (by decide)).1⟩

/-! ## Overflow behaviour of the value parser -/

theorem wrap32_mul10_add (a d : Int) : wrap32 (wrap32 a * 10 + d) = wrap32 (a * 10 + d) := by
  unfold wrap32
  omega

theorem wrap32_mul_one (a : Int) : wrap32 (wrap32 a * 1) = wrap32 a := by
  unfold wrap32
  omega

theorem decAcc_eq_decValue (ds : List Nat) :
    decAcc 0 ds = wrap32 ((decValue ds : Nat) : Int) := by
  induction ds using List.reverseRecOn with
  | nil =>
    simp only [decAcc, decValue, List.foldl_nil, Nat.cast_zero]
    exact (wrap32_of_range 0 (by omega) (by omega)).symm
  | append_singleton ds d ih =>
    unfold decAcc decValue at ih ⊢
    rw [List.foldl_append, List.foldl_append, ih, List.foldl_cons, List.foldl_nil,
      List.foldl_cons, List.foldl_nil, wrap32_mul10_add]
    congr 1

theorem str_to_int_digits (ds : List Nat) (hne : ds ≠ []) (hlen : ds.length ≤ 10)
    (hds : ∀ c ∈ ds, IsDigit c) :
    str_to_int (some ds) 0 = (true, wrap32 ((decValue ds : Nat) : Int)) := by
  have hloop := str_to_int_dec_digits ds [] false 11 0 hds (by omega)
  rw [decAcc_eq_decValue] at hloop
  simp only [List.nil_append, List.length_nil, Bool.false_eq_true, if_false,
    wrap32_mul_one] at hloop
  have hd1 := charAt_digits ds hds 1
  have hd0 : IsDigit (charAt ds 0) := by
    cases ds with
    | nil => exact absurd rfl hne
    | cons a t => exact hds a (by simp)
  have h00 : charAt ds 0 ≠ 0 := by unfold IsDigit at hd0; omega
  have h45 : charAt ds 0 ≠ 45 := by unfold IsDigit at hd0; omega
  have hx : ¬ (charAt ds 0 = 48 ∧ (charAt ds 1 = 120 ∨ charAt ds 1 = 88)) := by
    unfold IsDigit at hd1; omega
  unfold str_to_int
  simp only [h00, h45, hx, MAX_LENGTH, if_false, decide_False, Bool.false_and,
    Bool.false_eq_true, Nat.sub_zero]
  exact hloop

/-- Claim C29 (`str_to_int` does not detect 32-bit overflow): for every string of exactly 10
decimal digits, whatever its value `v` (those with `v ≥ 2^31` in particular), `str_to_int` with
the output cell initialised to 0 returns true and stores `v` reduced modulo 2^32 into the signed
32-bit range; `4294967296` stores 0 and `9999999999` stores 1410065407. -/
theorem C29_no_overflow_detection :
    (∀ ds : List Nat, ds.length = 10 → (∀ c ∈ ds, IsDigit c) →
      str_to_int (some ds) 0 = (true, wrap32 ((decValue ds : Nat) : Int)) ∧
      (wrap32 ((decValue ds : Nat) : Int) % 4294967296
          = ((decValue ds : Nat) : Int) % 4294967296 ∧
       -2147483648 ≤ wrap32 ((decValue ds : Nat) : Int) ∧
       wrap32 ((decValue ds : Nat) : Int) < 2147483648)) ∧
    str_to_int (some [52, 50, 57, 52, 57, 54, 55, 50, 57, 54]) 0 = (true, 0) ∧
    str_to_int (some [57, 57, 57, 57, 57, 57, 57, 57, 57, 57]) 0 = (true, 1410065407) := by
  have hrange : ∀ x : Int, -2147483648 ≤ wrap32 x ∧ wrap32 x < 2147483648 := by
    intro x
    unfold wrap32
    omega
  refine ⟨?_, ?_, ?_⟩
  · intro ds hlen hds
    have hne : ds ≠ [] := by
      intro h; rw [h] at hlen; simp at hlen
    exact ⟨str_to_int_digits ds hne (by omega) hds, wrap32_mod _, (hrange _).1, (hrange _).2⟩
  · rw [str_to_int_digits _ (by decide) (by decide) (by decide)]
    have hv : decValue [52, 50, 57, 52, 57, 54, 55, 50, 57, 54] = 4294967296 := by decide
    have hw : wrap32 ((4294967296 : Nat) : Int) = 0 := by unfold wrap32; omega
    rw [hv, hw]
  · rw [str_to_int_digits _ (by decide) (by decide) (by decide)]
    have hv : decValue [57, 57, 57, 57, 57, 57, 57, 57, 57, 57] = 9999999999 := by decide
    have hw : wrap32 ((9999999999 : Nat) : Int) = 1410065407 := by unfold wrap32; omega
    rw [hv, hw]

/-! ## Properties of the 16-bit numeric reader -/

theorem wrap16_mod (a : Int) : wrap16 a % 65536 = a % 65536 := by
  unfold wrap16
  omega

theorem numChar_bounds (c : Nat) (hc : IsNumChar c) : c ≠ 0 ∧ c ≠ 13 ∧ c < 256 := by
  unfold IsNumChar IsDigit at hc
  omega

theorem s16_loop_num (p : List Nat) (v s : Int) (hp : ∀ c ∈ p, IsNumChar c) :
    s16_loop p v s = ⟨s16Acc v p, if 45 ∈ p then -1 else s, []⟩ := by
  induction p generalizing v s with
  | nil => simp [s16_loop, s16Acc]
  | cons c p ih =>
    have hc : IsNumChar c := hp c (by simp)
    have hp2 : ∀ x ∈ p, IsNumChar x := fun x hx => hp x (by simp [hx])
    by_cases hd : c ≥ 48 ∧ c ≤ 57
    · have hne : c ≠ 45 := by omega
      have hne2 : ¬ (45 = c) := fun h => hne h.symm
      rw [s16_loop, if_pos hd, ih _ _ hp2]
      simp [s16Acc, hd, hne2]
    · have h45 : c = 45 := by
        unfold IsNumChar IsDigit at hc
        omega
      subst h45
      rw [s16_loop, if_neg hd, if_pos rfl, ih _ _ hp2]
      simp [s16Acc]

theorem s16_loop_bad (p : List Nat) (v s : Int) (hp : ∃ c ∈ p, ¬ IsNumChar c) :
    (s16_loop p v s).rest ≠ [] := by
  induction p generalizing v s with
  | nil => obtain ⟨c, hc, _⟩ := hp; simp at hc
  | cons c p ih =>
    by_cases hd : c ≥ 48 ∧ c ≤ 57
    · have hp2 : ∃ x ∈ p, ¬ IsNumChar x := by
        obtain ⟨x, hx, hbad⟩ := hp
        rcases List.mem_cons.1 hx with h | h
        · subst h
          exact absurd (Or.inl hd) hbad
        · exact ⟨x, h, hbad⟩
      rw [s16_loop, if_pos hd]
      exact ih _ _ hp2
    · by_cases h45 : c = 45
      · have hp2 : ∃ x ∈ p, ¬ IsNumChar x := by
          obtain ⟨x, hx, hbad⟩ := hp
          rcases List.mem_cons.1 hx with h | h
          · subst h
            exact absurd (Or.inr h45) hbad
          · exact ⟨x, h, hbad⟩
        rw [s16_loop, if_neg hd, if_pos h45]
        exact ih _ _ hp2
      · rw [s16_loop, if_neg hd, if_neg h45]
        simp

theorem s16Acc_mod (p : List Nat) (a : Int) (n : Nat) (h : a % 65536 = (n : Int) % 65536) :
    s16Acc a p % 65536
      = (((digitsOf p).foldl (fun x c => x * 10 + (c - 48)) n : Nat) : Int) % 65536 := by
  induction p generalizing a n with
  | nil => simpa [s16Acc, digitsOf] using h
  | cons c p ih =>
    by_cases hd : c ≥ 48 ∧ c ≤ 57
    · have hdig : decide (IsDigit c) = true := by
        unfold IsDigit; simp [hd.1, hd.2]
      have hstep : wrap16 (a * 10 + (c : Int) - 48) % 65536
          = ((n * 10 + (c - 48) : Nat) : Int) % 65536 := by
        rw [wrap16_mod]
        omega
      have := ih _ _ hstep
      unfold s16Acc digitsOf at this ⊢
      simp only [List.foldl_cons, hd, and_self, if_true, List.filter_cons, hdig]
      exact this
    · have hdig : decide (IsDigit c) = false := by
        unfold IsDigit; simp only [decide_eq_false_iff_not]; omega
      have := ih a n h
      unfold s16Acc digitsOf at this ⊢
      simp only [List.foldl_cons, hd, if_false, List.filter_cons, hdig, Bool.false_eq_true]
      exact this

theorem generic_read_s16_frame (lss : LSS) (tx : List Nat) (id : Nat) (m p tail : List Nat)
    (hid : id < 65536) (hm : m ≠ []) (hm0 : HeadNotDigit m)
    (hp : p.length ≤ 23) (hcr : ∀ b ∈ p, b ≠ 13 ∧ b < 256) (hnul : ∀ b ∈ p, b ≠ 0)
    (hbuf : lss.values.length = 24) :
    generic_read_s16 (lss.attached id (42 :: (decimal id ++ m ++ p ++ 13 :: tail)) tx) m
      = (if (s16_loop p 0 1).rest ≠ [] then
          ⟨0, { lss with servoID := id, lastCommStatus := LSS_CommStatus_ReadWrongID,
                         readID := id, values := p ++ 0 :: lss.values.drop (p.length + 1),
                         bus := some ⟨tail, tx⟩ }, false⟩
         else
          ⟨(((s16_loop p 0 1).value * (s16_loop p 0 1).value_sign) % 65536).toNat,
           { lss with servoID := id, lastCommStatus := LSS_CommStatus_ReadSuccess,
                      readID := id, values := p ++ 0 :: lss.values.drop (p.length + 1),
                      bus := some ⟨tail, tx⟩ }, false⟩) := by
  have hr := generic_read_str_frame lss tx id m p tail hid hm hm0 hp hcr hbuf
  have hc : c_str (p ++ 0 :: List.drop (p.length + 1) lss.values) = p :=
    c_str_append_nul p _ hnul
  unfold generic_read_s16
  simp only [hr, ReadStr.payload, if_true, hc]

theorem generic_read_s16_num (lss : LSS) (tx : List Nat) (id : Nat) (m p tail : List Nat)
    (hid : id < 65536) (hm : m ≠ []) (hm0 : HeadNotDigit m)
    (hp : p.length ≤ 23) (hnum : ∀ c ∈ p, IsNumChar c) (hbuf : lss.values.length = 24) :
    generic_read_s16 (lss.attached id (42 :: (decimal id ++ m ++ p ++ 13 :: tail)) tx) m
      = ⟨((signOf p * ((decValue (digitsOf p) : Nat) : Int)) % 65536).toNat,
         { lss with servoID := id, lastCommStatus := LSS_CommStatus_ReadSuccess,
                    readID := id, values := p ++ 0 :: lss.values.drop (p.length + 1),
                    bus := some ⟨tail, tx⟩ }, false⟩ := by
  have hcr : ∀ b ∈ p, b ≠ 13 ∧ b < 256 := fun b hb =>
    ⟨(numChar_bounds b (hnum b hb)).2.1, (numChar_bounds b (hnum b hb)).2.2⟩
  have hnul : ∀ b ∈ p, b ≠ 0 := fun b hb => (numChar_bounds b (hnum b hb)).1
  rw [generic_read_s16_frame lss tx id m p tail hid hm hm0 hp hcr hnul hbuf,
    s16_loop_num p 0 1 hnum]
  simp only [ne_eq, not_true_eq_false, if_false]
  have hmod := s16Acc_mod p 0 0 rfl
  have hval : (s16Acc 0 p * (if 45 ∈ p then -1 else 1)) % 65536
      = (signOf p * ((decValue (digitsOf p) : Nat) : Int)) % 65536 := by
    unfold signOf decValue
    by_cases h45 : 45 ∈ p
    · simp only [h45, if_true]
      omega
    · simp only [h45, if_false]
      omega
  rw [hval]

/-- Claim C25 (`generic_read_s16` treats `-` as legal at any position and digits as optional):
for every correctly framed reply whose payload `p` (at most 23 bytes) consists only of decimal
digits and `-` characters, the empty payload and a bare `-` included, `generic_read_s16` leaves
`lastCommStatus = LSS_CommStatus_ReadSuccess` and returns `s * d` modulo 2^16, `d` being the
number formed by the digits of `p` in order and `s` being -1 if `p` contains a `-` and 1
otherwise; on handle 5 the payload `1-2` returns 65524, the 16-bit value of -12, and the payload
`-` returns 0. -/
theorem C25_minus_anywhere :
    (∀ (lss : LSS) (tx tail m p : List Nat) (id : Nat), id ≤ 255 → m ≠ [] → HeadNotDigit m →
      p.length ≤ 23 → (∀ c ∈ p, IsNumChar c) → lss.values.length = 24 →
      (generic_read_s16 (lss.attached id (42 :: (decimal id ++ m ++ p ++ 13 :: tail)) tx) m).ret
        = ((signOf p * ((decValue (digitsOf p) : Nat) : Int)) % 65536).toNat ∧
      (generic_read_s16
        (lss.attached id (42 :: (decimal id ++ m ++ p ++ 13 :: tail)) tx) m).lss.lastCommStatus
        = LSS_CommStatus_ReadSuccess) ∧
    ((generic_read_s16 (idleHandle.attached 5 [42, 53, 81, 68, 49, 45, 50, 13] []) [81, 68]).ret
        = 65524 ∧ wrap16 65524 = -12) ∧
    (generic_read_s16 (idleHandle.attached 5 [42, 53, 81, 68, 45, 13] []) [81, 68]).ret = 0 := by
  have h5 : decimal 5 = [53] := by simp [decimal]
  refine ⟨?_, ⟨?_, ?_⟩, ?_⟩
  · intro lss tx tail m p id hid hm hm0 hp hnum hbuf
    rw [generic_read_s16_num lss tx id m p tail (by omega) hm hm0 hp hnum hbuf]
    exact ⟨rfl, rfl⟩
  · have h := generic_read_s16_num idleHandle [] 5 [81, 68] [49, 45, 50] [] (by decide)
      (by decide) (by decide) (by decide) (by decide) (by decide)
    rw [h5] at h
    have e : (42 :: ([53] ++ [81, 68] ++ [49, 45, 50] ++ [13]) : List Nat)
        = [42, 53, 81, 68, 49, 45, 50, 13] := by decide
    rw [e] at h
    rw [h]
    decide
  · unfold wrap16
    decide
  · have h := generic_read_s16_num idleHandle [] 5 [81, 68] [45] [] (by decide)
      (by decide) (by decide) (by decide) (by decide) (by decide)
    rw [h5] at h
    have e : (42 :: ([53] ++ [81, 68] ++ [45] ++ [13]) : List Nat)
        = [42, 53, 81, 68, 45, 13] := by decide
    rw [e] at h
    rw [h]
    decide

theorem digitsOf_decimal (n : Nat) : digitsOf (decimal n) = decimal n := by
  unfold digitsOf
  rw [List.filter_eq_self]
  intro c hc
  simpa using decimal_digits n c hc

theorem signedDecimal_numChar (v : Int) : ∀ c ∈ signedDecimal v, IsNumChar c := by
  intro c hc
  unfold signedDecimal at hc
  split at hc
  · rcases List.mem_cons.1 hc with h | h
    · exact Or.inr h
    · exact Or.inl (decimal_digits _ c h)
  · exact Or.inl (decimal_digits _ c hc)

theorem signedDecimal_value (v : Int) :
    signOf (signedDecimal v) * ((decValue (digitsOf (signedDecimal v)) : Nat) : Int) = v := by
  have hs : signOf (signedDecimal v) = if v < 0 then -1 else 1 := by
    unfold signOf
    by_cases hv : v < 0
    · simp [(minus_mem_signedDecimal v).2 hv, hv]
    · have : 45 ∉ signedDecimal v := fun h => hv ((minus_mem_signedDecimal v).1 h)
      simp [this, hv]
  have hd : digitsOf (signedDecimal v) = decimal v.natAbs := by
    unfold signedDecimal
    by_cases hv : v < 0
    · rw [if_pos hv]
      have h45 : decide (IsDigit 45) = false := by decide
      have : digitsOf (45 :: decimal v.natAbs) = digitsOf (decimal v.natAbs) := by
        unfold digitsOf
        rw [List.filter_cons, h45]
        simp
      rw [this, digitsOf_decimal]
    · rw [if_neg hv, digitsOf_decimal]
      have : v.toNat = v.natAbs := by omega
      rw [this]
  rw [hs, hd, decValue_decimal]
  by_cases hv : v < 0
  · simp only [hv, if_true]; omega
  · simp only [hv, if_false]; omega

/-- Claim C23 (numeric query round trip): for every 16-bit signed `n` (-32768 and 32767
included), when the reply is `'*' ++ decimal(id) ++ m ++ signedDecimal(n) ++ CR` for the
handle's address `id` and the expected mnemonic `m`, `generic_read_s16` returns the 16-bit value
`n mod 2^16`, whose signed interpretation is `n`, and leaves
`lastCommStatus = LSS_CommStatus_ReadSuccess`. -/
theorem C23_numeric_round_trip (lss : LSS) (tx tail m : List Nat) (id : Nat) (n : Int)
    (hid : id ≤ 255) (hm : m ≠ []) (hm0 : HeadNotDigit m)
    (hlo : -32768 ≤ n) (hhi : n ≤ 32767) (hbuf : lss.values.length = 24) :
    (generic_read_s16
      (lss.attached id (42 :: (decimal id ++ m ++ signedDecimal n ++ 13 :: tail)) tx) m).ret
      = (n % 65536).toNat ∧
    wrap16 (((generic_read_s16
      (lss.attached id (42 :: (decimal id ++ m ++ signedDecimal n ++ 13 :: tail)) tx) m).ret
        : Nat) : Int) = n ∧
    (generic_read_s16
      (lss.attached id (42 :: (decimal id ++ m ++ signedDecimal n ++ 13 :: tail))
        tx) m).lss.lastCommStatus = LSS_CommStatus_ReadSuccess := by
  have hlen := signedDecimal_length_le n hlo hhi
  rw [generic_read_s16_num lss tx id m (signedDecimal n) tail (by omega) hm hm0 (by omega)
    (signedDecimal_numChar n) hbuf, signedDecimal_value]
  refine ⟨rfl, ?_, rfl⟩
  show wrap16 (((n % 65536).toNat : Nat) : Int) = n
  have e : (((n % 65536).toNat : Nat) : Int) = n % 65536 := by omega
  rw [e]
  unfold wrap16
  omega

/-- Instance of C23: the value -32768 on handle 5 with mnemonic `QD`. -/
theorem C23_numeric_round_trip_witness :
    (5 ≤ 255 ∧ [81, 68] ≠ [] ∧ HeadNotDigit [81, 68] ∧ (-32768 : Int) ≤ -32768 ∧
      (-32768 : Int) ≤ 32767 ∧ idleHandle.values.length = 24) ∧
    (generic_read_s16
      (idleHandle.attached 5 (42 :: (decimal 5 ++ [81, 68] ++ signedDecimal (-32768) ++ 13 :: []))
        []) [81, 68]).ret = ((-32768 : Int) % 65536).toNat :=
  ⟨⟨by decide, by decide, by decide, by decide, by decide, by decide⟩,
   (C23_numeric_round_trip idleHandle [] [] [81, 68] 5 (-32768) (by decide) (by decide)
      (by decide) (by decide) (by decide) (by decide)).1⟩

/-- Claim C24 (malformed numeric payload reported as a format error) evaluated on the code: on
handle 5 the correctly framed reply `*5QD12a` CR makes `generic_read_s16` return 0 and set
`lastCommStatus = LSS_CommStatus_ReadWrongID`, the address-mismatch status, not
`LSS_CommStatus_ReadWrongFormat`; the same holds for every correctly framed reply whose payload
(a C string of at most 23 bytes without CR) contains a character that is neither a decimal digit
nor `-`. -/
theorem C24_malformed_payload_sets_wrong_id :
    ((generic_read_s16 (idleHandle.attached 5 [42, 53, 81, 68, 49, 50, 97, 13] []) [81, 68]).ret
        = 0 ∧
     (generic_read_s16
        (idleHandle.attached 5 [42, 53, 81, 68, 49, 50, 97, 13] []) [81, 68]).lss.lastCommStatus
        = LSS_CommStatus_ReadWrongID ∧
     (generic_read_s16
        (idleHandle.attached 5 [42, 53, 81, 68, 49, 50, 97, 13] []) [81, 68]).lss.lastCommStatus
        ≠ LSS_CommStatus_ReadWrongFormat) ∧
    (∀ (lss : LSS) (tx tail m p : List Nat) (id : Nat), id ≤ 255 → m ≠ [] → HeadNotDigit m →
      p.length ≤ 23 → (∀ b ∈ p, b ≠ 13 ∧ b < 256) → (∀ b ∈ p, b ≠ 0) →
      (∃ c ∈ p, ¬ IsNumChar c) → lss.values.length = 24 →
      (generic_read_s16 (lss.attached id (42 :: (decimal id ++ m ++ p ++ 13 :: tail)) tx) m).ret
        = 0 ∧
      (generic_read_s16
        (lss.attached id (42 :: (decimal id ++ m ++ p ++ 13 :: tail)) tx) m).lss.lastCommStatus
        = LSS_CommStatus_ReadWrongID) := by
  refine ⟨⟨by decide, by decide, by decide⟩, ?_⟩
  intro lss tx tail m p id hid hm hm0 hp hcr hnul hbad hbuf
  rw [generic_read_s16_frame lss tx id m p tail (by omega) hm hm0 hp hcr hnul hbuf,
    if_pos (s16_loop_bad p 0 1 hbad)]
  exact ⟨rfl, rfl⟩

theorem generic_write_val_attached (lss : LSS) (id : Nat) (rx tx m : List Nat) (v : Int) :
    generic_write_val (lss.attached id rx tx) m v =
      (true, ({ lss with lastCommStatus := LSS_CommStatus_WriteSuccess }).attached id rx
        (tx ++ ([35] ++ decimal id ++ m ++ signedDecimal v ++ [13]))) := by
  simp [generic_write_val, LSS.attached, Bus.write, LSS_COMMAND_START, LSS_COMMAND_END]

theorem generic_read_str_mismatch (lss : LSS) (tx : List Nat) (id : Nat)
    (a : List Nat) (x : Nat) (b : List Nat) (y : Nat) (rest : List Nat)
    (hid : id < 65536) (h0 : HeadNotDigit (a ++ y :: rest)) (hxy : y ≠ x) :
    generic_read_str (lss.attached id (42 :: (decimal id ++ (a ++ y :: rest))) tx) (a ++ x :: b)
      = ⟨false, { lss with servoID := id, lastCommStatus := LSS_CommStatus_ReadWrongIdentifier,
                           readID := id, bus := some ⟨rest, tx⟩ }, false⟩ := by
  have hscan := read_id_loop_digits (decimal id) (a ++ y :: rest) 0 false (decimal_digits id) h0
  have hne2 : (decimal id).isEmpty = false := by
    cases h : decimal id with
    | nil => exact absurd h (decimal_ne_nil id)
    | cons a t => rfl
  rw [idAcc_decimal id hid] at hscan
  simp only [hne2, Bool.not_false, Bool.or_true] at hscan
  have hcmd := match_cmd_wrong a x b y rest hxy
  unfold generic_read_str LSS.attached
  simp only [find, LSS_COMMAND_REPLY_START, if_true, Bool.not_true, Bool.false_eq_true,
    if_false]
  rw [hscan]
  simp only [Bool.not_true, bne_self_eq_false, Bool.or_self, Bool.false_eq_true, if_false]
  rw [hcmd]

/-- Claim C28 (`get_distance_mm` sends one mnemonic and expects another): with a transport
attached, on a handle with address `id`, for every reply that echoes the mnemonic sent
(`'*' ++ decimal(id) ++ QMS` followed by anything), `get_distance_mm` has appended
`'#' ++ decimal(id) ++ QMS ++ decimal(queryTypeDistance) ++ CR` to the written bytes, returns 0
and leaves `lastCommStatus = LSS_CommStatus_ReadWrongIdentifier`, the reader having stopped at
the second character because it expects `QA`; a reply carrying `QA` and a numeric payload is
read with `LSS_CommStatus_ReadSuccess`. -/
theorem C28_distance_query_mismatch (lss : LSS) (tx rest : List Nat) (id : Nat)
    (t : LSS_QueryTypeDistance) (hid : id ≤ 255) (hbuf : lss.values.length = 24) :
    ((get_distance_mm (lss.attached id
        (42 :: (decimal id ++ (LSS_QUERY_MODEL_STRING ++ rest))) tx) t).ret = 0 ∧
     (get_distance_mm (lss.attached id
        (42 :: (decimal id ++ (LSS_QUERY_MODEL_STRING ++ rest))) tx) t).lss.lastCommStatus
        = LSS_CommStatus_ReadWrongIdentifier ∧
     (get_distance_mm (lss.attached id
        (42 :: (decimal id ++ (LSS_QUERY_MODEL_STRING ++ rest))) tx) t).lss.bus
        = some ⟨83 :: rest,
            tx ++ ([35] ++ decimal id ++ LSS_QUERY_MODEL_STRING ++ decimal t.toNat ++ [13])⟩) ∧
    (∀ p tail : List Nat, p.length ≤ 23 → (∀ c ∈ p, IsNumChar c) →
      (get_distance_mm (lss.attached id
        (42 :: (decimal id ++ LSS_QUERY_ANALOG ++ p ++ 13 :: tail)) tx) t).lss.lastCommStatus
        = LSS_CommStatus_ReadSuccess) := by
  have hsd : signedDecimal ((t.toNat : Nat) : Int) = decimal t.toNat := by
    have h1 : ¬ ((t.toNat : Nat) : Int) < 0 := by omega
    simp [signedDecimal, h1]
  constructor
  · have hr := generic_read_str_mismatch
      { lss with lastCommStatus := LSS_CommStatus_WriteSuccess }
      (tx ++ ([35] ++ decimal id ++ LSS_QUERY_MODEL_STRING ++ decimal t.toNat ++ [13])) id
      [81] 65 [] 77 (83 :: rest) (by omega) (by intro c hc; simp at hc; subst hc; decide)
      (by decide)
    have e1 : ([81] ++ 77 :: 83 :: rest : List Nat) = LSS_QUERY_MODEL_STRING ++ rest := by
      simp [LSS_QUERY_MODEL_STRING]
    have e2 : ([81] ++ 65 :: [] : List Nat) = LSS_QUERY_ANALOG := by
      simp [LSS_QUERY_ANALOG]
    rw [e1, e2] at hr
    unfold get_distance_mm
    simp only [generic_write_val_attached, hsd, Bool.not_true, Bool.false_eq_true, if_false]
    unfold generic_read_s16
    simp only [hr, ReadStr.payload, Bool.false_eq_true, if_false, and_self]
  · intro p tail hp hnum
    have hr := generic_read_s16_num
      { lss with lastCommStatus := LSS_CommStatus_WriteSuccess }
      (tx ++ ([35] ++ decimal id ++ LSS_QUERY_MODEL_STRING ++ decimal t.toNat ++ [13])) id
      LSS_QUERY_ANALOG p tail (by omega) (by decide) (by decide) hp hnum hbuf
    unfold get_distance_mm
    simp only [generic_write_val_attached, hsd, Bool.not_true, Bool.false_eq_true, if_false, hr]

/-- Instance of C28: handle 5 receives the echo `*5QMS2` CR. -/
theorem C28_distance_query_mismatch_witness :
    (5 ≤ 255 ∧ idleHandle.values.length = 24) ∧
    (get_distance_mm (idleHandle.attached 5
        (42 :: (decimal 5 ++ (LSS_QUERY_MODEL_STRING ++ [50, 13]))) [])
        LSS_QueryTypeDistance.LSS_Query_Sharp_GP2Y0A21YK0F).lss.lastCommStatus
      = LSS_CommStatus_ReadWrongIdentifier :=
  ⟨⟨by decide, by decide⟩,
   (C28_distance_query_mismatch idleHandle [] [50, 13] 5
      LSS_QueryTypeDistance.LSS_Query_Sharp_GP2Y0A21YK0F (by decide) (by decide)).1.2.1⟩

/-! ## Sentinel of the first position query -/

theorem str_to_int_signedDecimal (n : Int) (hlo : -32768 ≤ n) (hhi : n ≤ 32767) :
    str_to_int (some (signedDecimal n)) 0 = (true, n) := by
  by_cases hneg : n < 0
  · have hlen : (decimal n.natAbs).length ≤ 5 := decimal_length_le 4 n.natAbs (by omega)
    have hd0 := decimal_charAt_zero n.natAbs
    have hloop := str_to_int_dec_digits (decimal n.natAbs) [45] true 10 0
      (decimal_digits n.natAbs) (by omega)
    rw [decAcc_decimal n.natAbs (by omega)] at hloop
    have h1 : charAt (45 :: decimal n.natAbs) 1 = charAt (decimal n.natAbs) 0 := by
      simp [charAt]
    have h10 : charAt (decimal n.natAbs) 0 ≠ 0 := by unfold IsDigit at hd0; omega
    have hres : wrap32 (((n.natAbs : Nat) : Int) * -1) = n := by
      have e : ((n.natAbs : Nat) : Int) * -1 = n := by omega
      rw [e]
      exact wrap32_of_range _ (by omega) (by omega)
    simp only [signedDecimal, hneg, if_true, str_to_int]
    have h0 : charAt (45 :: decimal n.natAbs) 0 = 45 := by simp [charAt]
    simp only [h0, h1, h10, MAX_LENGTH]
    simp only [List.singleton_append, List.length_singleton, if_true] at hloop
    simp only [reduceCtorEq, false_and, if_false, decide_True, decide_False, Bool.true_and,
      Bool.false_eq_true, if_true, Nat.reduceSub, Nat.reduceEqDiff, OfNat.ofNat_ne_zero]
    rw [hloop, hres]
  · have hlen : (decimal n.toNat).length ≤ 5 := decimal_length_le 4 n.toNat (by omega)
    have hd0 := decimal_charAt_zero n.toNat
    have hd1 := charAt_digits (decimal n.toNat) (decimal_digits n.toNat) 1
    have hloop := str_to_int_dec_digits (decimal n.toNat) [] false 11 0
      (decimal_digits n.toNat) (by omega)
    rw [decAcc_decimal n.toNat (by omega)] at hloop
    have h00 : charAt (decimal n.toNat) 0 ≠ 0 := by unfold IsDigit at hd0; omega
    have h45 : charAt (decimal n.toNat) 0 ≠ 45 := by unfold IsDigit at hd0; omega
    have hx : ¬ (charAt (decimal n.toNat) 0 = 48 ∧
        (charAt (decimal n.toNat) 1 = 120 ∨ charAt (decimal n.toNat) 1 = 88)) := by
      unfold IsDigit at hd1; omega
    have hres : wrap32 (((n.toNat : Nat) : Int) * 1) = n := by
      have e : ((n.toNat : Nat) : Int) * 1 = n := by omega
      rw [e]
      exact wrap32_of_range _ (by omega) (by omega)
    simp only [signedDecimal, hneg, if_false, str_to_int]
    simp only [h00, h45, hx, MAX_LENGTH, if_false, decide_False, Bool.false_and,
      Bool.false_eq_true, Nat.sub_zero]
    simp only [List.nil_append, List.length_nil, Bool.false_eq_true, if_false] at hloop
    rw [hloop, hres]

theorem signedDecimal_framed (n : Int) :
    (∀ b ∈ signedDecimal n, b ≠ 13 ∧ b < 256) ∧ (∀ b ∈ signedDecimal n, b ≠ 0) := by
  constructor
  · intro b hb
    have := numChar_bounds b (signedDecimal_numChar n b hb)
    exact ⟨this.2.1, this.2.2⟩
  · intro b hb
    exact (numChar_bounds b (signedDecimal_numChar n b hb)).1

theorem get_first_position_disabled (lss : LSS) (tx tail : List Nat) (id : Nat)
    (hid : id < 65536) (hbuf : lss.values.length = 24) :
    (get_first_position (lss.attached id
        (42 :: (decimal id ++ LSS_QUERY_FIRST_POSITION ++ LSS_FIRST_POSITION_DISABLED
          ++ 13 :: tail)) tx)).ret = 0 ∧
    (get_first_position (lss.attached id
        (42 :: (decimal id ++ LSS_QUERY_FIRST_POSITION ++ LSS_FIRST_POSITION_DISABLED
          ++ 13 :: tail)) tx)).lss.lastCommStatus = LSS_CommStatus_ReadSuccess ∧
    (get_first_position (lss.attached id
        (42 :: (decimal id ++ LSS_QUERY_FIRST_POSITION ++ LSS_FIRST_POSITION_DISABLED
          ++ 13 :: tail)) tx)).parse = none := by
  have h := get_first_position_frame lss tx id LSS_FIRST_POSITION_DISABLED tail hid
    (by decide) (by decide) (by decide) hbuf
  have hd : strcmp LSS_FIRST_POSITION_DISABLED LSS_FIRST_POSITION_DISABLED = 0 := by decide
  rw [if_pos hd, if_pos hd] at h
  rw [h]
  exact ⟨rfl, rfl, rfl⟩

theorem get_first_position_numeric (lss : LSS) (tx tail p : List Nat) (id : Nat) (v : Int)
    (hid : id < 65536) (hbuf : lss.values.length = 24)
    (hcr : ∀ b ∈ p, b ≠ 13 ∧ b < 256) (hnul : ∀ b ∈ p, b ≠ 0)
    (hconv : str_to_int (some p) 0 = (true, v)) :
    (get_first_position (lss.attached id
        (42 :: (decimal id ++ LSS_QUERY_FIRST_POSITION ++ p ++ 13 :: tail)) tx)).ret
      = wrap16 v ∧
    (get_first_position (lss.attached id
        (42 :: (decimal id ++ LSS_QUERY_FIRST_POSITION ++ p ++ 13 :: tail))
          tx)).lss.lastCommStatus = LSS_CommStatus_ReadSuccess ∧
    (get_first_position (lss.attached id
        (42 :: (decimal id ++ LSS_QUERY_FIRST_POSITION ++ p ++ 13 :: tail)) tx)).parse
      = some (true, v) := by
  have h1 : (str_to_int (some p) 0).1 = true := by rw [hconv]
  have hlen := (str_to_int_true p 0 hnul h1).1
  have hne : strcmp p LSS_FIRST_POSITION_DISABLED ≠ 0 := by
    intro h0
    have hp := (strcmp_eq_zero_iff p LSS_FIRST_POSITION_DISABLED hnul (by decide)).1 h0
    rw [hp] at h1
    revert h1
    decide
  have h := get_first_position_frame lss tx id p tail hid (by omega) hcr hnul hbuf
  rw [if_neg hne, if_neg hne, hconv] at h
  rw [h]
  exact ⟨rfl, rfl, rfl⟩

/-- Claim C15 on the code, refuting the claim as stated: on handle 5 the reply `*5QFDDIS` CR and
the reply `*5QFD0` CR give `get_first_position` the same outcome, return value 0 with
`lastCommStatus = LSS_CommStatus_ReadSuccess`, so the disabled result is not distinguishable from
the result for the numeric payload `0`. -/
theorem C15_disabled_same_as_zero :
    (get_first_position (idleHandle.attached 5 [42, 53, 81, 70, 68, 68, 73, 83, 13] [])).ret
      = (get_first_position (idleHandle.attached 5 [42, 53, 81, 70, 68, 48, 13] [])).ret ∧
    (get_first_position
        (idleHandle.attached 5 [42, 53, 81, 70, 68, 68, 73, 83, 13] [])).lss.lastCommStatus
      = (get_first_position
        (idleHandle.attached 5 [42, 53, 81, 70, 68, 48, 13] [])).lss.lastCommStatus := by
  have e1 : [42, 53, 81, 70, 68, 68, 73, 83, 13]
      = 42 :: (decimal 5 ++ LSS_QUERY_FIRST_POSITION ++ [68, 73, 83] ++ 13 :: []) := by
    simp [decimal, LSS_QUERY_FIRST_POSITION]
  have e2 : [42, 53, 81, 70, 68, 48, 13]
      = 42 :: (decimal 5 ++ LSS_QUERY_FIRST_POSITION ++ [48] ++ 13 :: []) := by
    simp [decimal, LSS_QUERY_FIRST_POSITION]
  have h1 := get_first_position_frame idleHandle [] 5 [68, 73, 83] [] (by decide) (by decide)
    (by decide) (by decide) (by decide)
  have h2 := get_first_position_frame idleHandle [] 5 [48] [] (by decide) (by decide)
    (by decide) (by decide) (by decide)
  have hd1 : strcmp [68, 73, 83] LSS_FIRST_POSITION_DISABLED = 0 := by decide
  have hd2 : strcmp [48] LSS_FIRST_POSITION_DISABLED ≠ 0 := by decide
  rw [← e1, if_pos hd1, if_pos hd1] at h1
  rw [← e2, if_neg hd2, if_neg hd2, str_to_int_zero] at h2
  rw [h1, h2]
  simp [wrap16_of_range 0 (by decide) (by decide)]

/-- Claim C15 as amended: for every handle with address `id` in 0..250, (1) when the reply
payload is exactly `DIS`, `get_first_position` returns 0 from its sentinel branch, without
calling `str_to_int`, and leaves `lastCommStatus = LSS_CommStatus_ReadSuccess`; (2) for every
numeric payload `p` (a C string without CR that `str_to_int` accepts, with value `v`) it calls
`str_to_int`, returns `(int16_t) v` and leaves `LSS_CommStatus_ReadSuccess`, so the outcome
(return value together with `lastCommStatus`) equals the disabled outcome exactly when
`(int16_t) v = 0`; (3) in particular the payload `signedDecimal n` of a 16-bit signed `n` gives
the return value `n`, which differs from the disabled result for every `n ≠ 0`; (4) the payload
`0` gives the same return value and the same status as `DIS`, while only the former goes
through `str_to_int`. -/
theorem C15_disabled_returns_zero (lss : LSS) (tx tail : List Nat) (id : Nat)
    (hid : id ≤ 250) (hbuf : lss.values.length = 24) :
    ((get_first_position
        (lss.attached id (firstPositionReply id LSS_FIRST_POSITION_DISABLED tail) tx)).ret = 0 ∧
     (get_first_position
         (lss.attached id (firstPositionReply id LSS_FIRST_POSITION_DISABLED tail) tx)).lss.lastCommStatus
        = LSS_CommStatus_ReadSuccess ∧
     (get_first_position
         (lss.attached id (firstPositionReply id LSS_FIRST_POSITION_DISABLED tail) tx)).parse = none) ∧
    (∀ (p : List Nat) (v : Int), (∀ b ∈ p, b ≠ 13 ∧ b < 256) → (∀ b ∈ p, b ≠ 0) →
      str_to_int (some p) 0 = (true, v) →
      (get_first_position (lss.attached id (firstPositionReply id p tail) tx)).ret = wrap16 v ∧
      (get_first_position (lss.attached id (firstPositionReply id p tail) tx)).lss.lastCommStatus
        = LSS_CommStatus_ReadSuccess ∧
      (get_first_position
          (lss.attached id (firstPositionReply id p tail) tx)).parse = some (true, v) ∧
      (((get_first_position (lss.attached id (firstPositionReply id p tail) tx)).ret
          = (get_first_position
              (lss.attached id (firstPositionReply id LSS_FIRST_POSITION_DISABLED tail) tx)).ret ∧
        (get_first_position (lss.attached id (firstPositionReply id p tail) tx)).lss.lastCommStatus
          = (get_first_position
              (lss.attached id (firstPositionReply id LSS_FIRST_POSITION_DISABLED tail) tx)).lss.lastCommStatus)
        ↔ wrap16 v = 0)) ∧
    (∀ n : Int, -32768 ≤ n → n ≤ 32767 →
      (get_first_position
          (lss.attached id (firstPositionReply id (signedDecimal n) tail) tx)).ret = n ∧
      (get_first_position
          (lss.attached id (firstPositionReply id (signedDecimal n) tail) tx)).lss.lastCommStatus
        = LSS_CommStatus_ReadSuccess ∧
      (get_first_position
          (lss.attached id (firstPositionReply id (signedDecimal n) tail) tx)).parse = some (true, n) ∧
      (n ≠ 0 →
        (get_first_position (lss.attached id (firstPositionReply id (signedDecimal n) tail) tx)).ret
          ≠ (get_first_position
              (lss.attached id (firstPositionReply id LSS_FIRST_POSITION_DISABLED tail) tx)).ret)) ∧
    ((get_first_position (lss.attached id (firstPositionReply id [48] tail) tx)).ret
        = (get_first_position
            (lss.attached id (firstPositionReply id LSS_FIRST_POSITION_DISABLED tail) tx)).ret ∧
     (get_first_position (lss.attached id (firstPositionReply id [48] tail) tx)).lss.lastCommStatus
        = (get_first_position
            (lss.attached id (firstPositionReply id LSS_FIRST_POSITION_DISABLED tail) tx)).lss.lastCommStatus ∧
     (get_first_position
         (lss.attached id (firstPositionReply id [48] tail) tx)).parse = some (true, 0)) := by
  unfold firstPositionReply
  have hdis := get_first_position_disabled lss tx tail id (by omega) hbuf
  have hnum : ∀ n : Int, -32768 ≤ n → n ≤ 32767 →
      (get_first_position (lss.attached id
        (42 :: (decimal id ++ LSS_QUERY_FIRST_POSITION ++ signedDecimal n ++ 13 :: tail))
          tx)).ret = n ∧
      (get_first_position (lss.attached id
        (42 :: (decimal id ++ LSS_QUERY_FIRST_POSITION ++ signedDecimal n ++ 13 :: tail))
          tx)).lss.lastCommStatus = LSS_CommStatus_ReadSuccess ∧
      (get_first_position (lss.attached id
        (42 :: (decimal id ++ LSS_QUERY_FIRST_POSITION ++ signedDecimal n ++ 13 :: tail))
          tx)).parse = some (true, n) := by
    intro n hlo hhi
    have h := get_first_position_numeric lss tx tail (signedDecimal n) id n (by omega) hbuf
      (signedDecimal_framed n).1 (signedDecimal_framed n).2
      (str_to_int_signedDecimal n hlo hhi)
    rw [wrap16_of_range n hlo (by omega)] at h
    exact h
  refine ⟨hdis, ?_, ?_, ?_⟩
  · intro p v hcr hnul hconv
    have h := get_first_position_numeric lss tx tail p id v (by omega) hbuf hcr hnul hconv
    refine ⟨h.1, h.2.1, h.2.2, ?_⟩
    rw [h.1, h.2.1, hdis.1, hdis.2.1]
    constructor
    · intro hh
      exact hh.1
    · intro hh
      exact ⟨hh, rfl⟩
  · intro n hlo hhi
    have h := hnum n hlo hhi
    refine ⟨h.1, h.2.1, h.2.2, ?_⟩
    intro hn
    rw [h.1, hdis.1]
    exact hn
  · have h := get_first_position_numeric lss tx tail [48] id 0 (by omega) hbuf
      (by decide) (by decide) str_to_int_zero
    rw [wrap16_of_range 0 (by decide) (by decide)] at h
    rw [h.1, h.2.1, hdis.1, hdis.2.1]
    exact ⟨rfl, rfl, h.2.2⟩

/-- Instance of the amended C15: handle 5 with a zeroed buffer; the payload `DIS` gives the
return value 0 with no call of `str_to_int`. -/
theorem C15_disabled_returns_zero_witness :
    (5 ≤ 250 ∧ idleHandle.values.length = 24) ∧
    (get_first_position (idleHandle.attached 5
        (firstPositionReply 5 LSS_FIRST_POSITION_DISABLED []) [])).ret = 0 ∧
    (get_first_position (idleHandle.attached 5
        (firstPositionReply 5 LSS_FIRST_POSITION_DISABLED []) [])).parse = none :=
  ⟨⟨by decide, by decide⟩,
   (C15_disabled_returns_zero idleHandle [] [] 5 (by decide) (by decide)).1.1,
   (C15_disabled_returns_zero idleHandle [] [] 5 (by decide) (by decide)).1.2.2⟩


end LSSLib
